import Mathlib

/-!
Verification development for the wage-timer application.

The development shallowly embeds the wage-rate resolution and
earnings-accumulation engine (src/lib/wageCalculator.ts) and the active-shift
state machine (src/contexts/TimerContext.tsx).  Timestamps are modelled as
natural numbers counting milliseconds since the Unix epoch, interpreted in a
fixed timezone (UTC); JavaScript numbers used for money and percentages are
modelled as rationals.  JavaScript truthiness on numbers (0 is falsy) is
modelled explicitly where the source relies on it.
-/

namespace WageTimer

/-! ## Time model

A timestamp is milliseconds since the epoch.  The epoch day (1970-01-01) was a
Thursday, so JavaScript Date.getDay (0 = Sunday) of a timestamp t is
(t / dayMs + 4) % 7.
-/

/-- Milliseconds in one minute (the walk step of the earnings loop). -/
def minuteMs : ℕ := 60000

/-- Milliseconds in one day. -/
def dayMs : ℕ := 86400000

/-- The calendar-day index of a timestamp (used for toDateString equality). -/
def dayIndex (t : ℕ) : ℕ := t / dayMs

/-- JavaScript Date.getDay: 0 = Sunday, ..., 6 = Saturday. -/
def jsGetDay (t : ℕ) : ℕ := (dayIndex t + 4) % 7

/-- The minute of the day of a timestamp; equals
Date.getHours() * 60 + Date.getMinutes(). -/
def minuteOfDay (t : ℕ) : ℕ := t / minuteMs % 1440

/-- Two timestamps fall on the same calendar day
(Date.toDateString() equality in the source). -/
def sameDate (a b : ℕ) : Bool := dayIndex a = dayIndex b

/-- An "HH:MM" time-of-day string, kept as its two parsed fields. -/
structure HM where
  hh : ℕ
  mm : ℕ
deriving DecidableEq, Repr

/-- The minutes-of-day value parsed from the string: hours times 60 plus
minutes, exactly as the repeated parseInt/split computation in the source. -/
def HM.toMinutes (x : HM) : ℕ := x.hh * 60 + x.mm

/-- JavaScript truthiness of an optional number: false when absent or 0. -/
def jsTruthyNat (v : Option ℕ) : Bool :=
  match v with
  | none => false
  | some x => x ≠ 0

/-- JavaScript (v || d) for an optional number v: d when v is absent or 0. -/
def jsOrNat (v : Option ℕ) (d : ℕ) : ℕ :=
  match v with
  | none => d
  | some x => if x = 0 then d else x

/-- JavaScript (v || d) for an optional rational. -/
def jsOrRat (v : Option ℚ) (d : ℚ) : ℚ :=
  match v with
  | none => d
  | some x => if x = 0 then d else x

/-- JavaScript Number.toFixed(2) followed by parseFloat: round to a whole
number of hundredths, ties away from zero. -/
def toFixed2 (x : ℚ) : ℚ :=
  if 0 ≤ x then (⌊x * 100 + 1 / 2⌋ : ℚ) / 100 else -((⌊-x * 100 + 1 / 2⌋ : ℚ) / 100)

/-! ## Data model (src/types/index.ts) -/

/-- A time-bonus window from the settings (interface HourlyAllowance). -/
structure HourlyAllowance where
  id : String
  startTime : HM
  endTime : HM
  percentage : ℚ
deriving DecidableEq, Repr

/-- A configured recurring automatic break (interface ScheduledBreak).
Days are JavaScript weekday indices (0 = Sunday). -/
structure ScheduledBreak where
  id : String
  name : Option String
  startTime : HM
  endTime : HM
  days : List ℕ
deriving DecidableEq, Repr

/-- The application settings (interface AppSettings).  dayAllowances is a
partial map from weekday index to percent; a stored value of 0 is falsy in
JavaScript and the source treats it like an absent entry. -/
structure AppSettings where
  baseWage : ℚ
  dayAllowances : ℕ → Option ℚ
  hourlyAllowances : List HourlyAllowance
  scheduledBreaks : List ScheduledBreak

/-- A recorded break interval of a shift (interface BreakRecord). -/
structure BreakRecord where
  startTime : ℕ
  endTime : Option ℕ
  isScheduled : Bool
  scheduledBreakId : Option String
  scheduledBreakName : Option String
deriving DecidableEq, Repr

/-- An aggregated rate segment of a finalized shift (interface RateSegment). -/
structure RateSegment where
  percentage : ℚ
  durationSeconds : ℕ
deriving DecidableEq, Repr

/-- A shift record (interface Shift).  unusedScheduledBreakSeconds is the
banked unused automatic-break time attached on finalization. -/
structure Shift where
  id : String
  startTime : ℕ
  endTime : Option ℕ
  breaks : List BreakRecord
  baseWageAtStart : ℚ
  totalEarnings : Option ℚ
  rateSegments : Option (List RateSegment)
  unusedScheduledBreakSeconds : Option ℕ
deriving DecidableEq, Repr

/-! ## RateResolver (getEffectiveHourlyRate, src/lib/wageCalculator.ts) -/

/-- The pair returned by getEffectiveHourlyRate. -/
structure RateInfo where
  rate : ℚ
  percentage : ℚ
deriving DecidableEq, Repr

/-- The accumulation loop over settings.hourlyAllowances:
hourlyBonusPercent starts at 0 and takes Math.max with the percentage of
every allowance whose half-open minute window contains the current minute. -/
def hourlyBonusLoop (timeMin : ℕ) (has : List HourlyAllowance) : ℚ :=
  has.foldl
    (fun acc ha =>
      if ha.startTime.toMinutes ≤ timeMin ∧ timeMin < ha.endTime.toMinutes then
        max acc ha.percentage
      else acc)
    0

/-- getEffectiveHourlyRate (current revision of src/lib/wageCalculator.ts):
day component settings.dayAllowances[day] || 100, additive bonus from the
loop above, rate = baseWage * (totalPercentage / 100). -/
def getEffectiveHourlyRate (t : ℕ) (s : AppSettings) : RateInfo :=
  let dayAllowancePercent : ℚ := jsOrRat (s.dayAllowances (jsGetDay t)) 100
  let hourlyBonusPercent : ℚ := hourlyBonusLoop (minuteOfDay t) s.hourlyAllowances
  let totalPercentage := dayAllowancePercent + hourlyBonusPercent
  { rate := s.baseWage * (totalPercentage / 100), percentage := totalPercentage }

/-! ## EarningsAccumulator (calculateShiftEarnings, src/lib/wageCalculator.ts) -/

/-- The end timestamp used for one recorded break interval inside the walk:
(isLive && !br.endTime && br.startTime === breaks[breaks.length-1]?.startTime)
? Date.now() : (br.endTime || t). -/
def breakEndForCalc (isLive : Bool) (now : ℕ) (breaks : List BreakRecord)
    (br : BreakRecord) (t : ℕ) : ℕ :=
  if isLive ∧ ¬ jsTruthyNat br.endTime ∧
      (breaks.getLast?.map BreakRecord.startTime) = some br.startTime then
    now
  else jsOrNat br.endTime t

/-- Whether the walk instant t is covered by some recorded break interval. -/
def onRecordedBreak (isLive : Bool) (now : ℕ) (breaks : List BreakRecord)
    (t : ℕ) : Bool :=
  breaks.any fun br =>
    br.startTime ≤ t ∧ t < breakEndForCalc isLive now breaks br t

/-- Whether the walk instant t falls inside a configured scheduled-break
window applicable to its weekday (half-open minute window). -/
def onScheduledWindow (sbs : List ScheduledBreak) (t : ℕ) : Bool :=
  sbs.any fun sb =>
    jsGetDay t ∈ sb.days ∧
    sb.startTime.toMinutes ≤ minuteOfDay t ∧ minuteOfDay t < sb.endTime.toMinutes

/-- Whether the walk instant t is suppressed (contributes no earnings):
a recorded break interval covers it, or a scheduled window applies. -/
def onBreakAt (isLive : Bool) (now : ℕ) (breaks : List BreakRecord)
    (sbs : List ScheduledBreak) (t : ℕ) : Bool :=
  onRecordedBreak isLive now breaks t || onScheduledWindow sbs t

/-- The number of iterations of the loop
for (t = startTime; t < endTime; t += 60000). -/
def walkCount (startT endT : ℕ) : ℕ := (endT - startT + (minuteMs - 1)) / minuteMs

/-- The instants visited by the minute walk. -/
def walkSteps (startT endT : ℕ) : List ℕ :=
  (List.range (walkCount startT endT)).map fun k => startT + k * minuteMs

/-- The result record of calculateShiftEarnings. -/
structure EarningsResult where
  totalEarnings : ℚ
  finalEffectiveRate : ℚ
  finalTotalPercentage : ℚ
deriving DecidableEq, Repr

/-- calculateShiftEarnings (current revision of src/lib/wageCalculator.ts).
The real-time clock Date.now() is passed explicitly as now.  The walk adds
rate/60 for every non-suppressed minute instant; the final rate fields are
resolved at Math.max(shift.startTime, endTime - 1). -/
def calculateShiftEarnings (shift : Shift) (s : AppSettings)
    (isLive : Bool) (now : ℕ) : EarningsResult :=
  if shift.startTime = 0 then
    { totalEarnings := 0, finalEffectiveRate := 0, finalTotalPercentage := 0 }
  else
    let endT : ℕ := if isLive then now else jsOrNat shift.endTime now
    let raw : ℚ :=
      (walkSteps shift.startTime endT).foldl
        (fun acc t =>
          if onBreakAt isLive now shift.breaks s.scheduledBreaks t then acc
          else acc + (getEffectiveHourlyRate t s).rate / 60)
        0
    let finalRateMoment := max shift.startTime (endT - 1)
    let finalRateDetails := getEffectiveHourlyRate finalRateMoment s
    { totalEarnings := toFixed2 raw,
      finalEffectiveRate := toFixed2 finalRateDetails.rate,
      finalTotalPercentage := finalRateDetails.percentage }

/-! ## Aggregated rate segments

The revision of calculateShiftEarnings currently checked in under src/lib does
not compute rateSegments, although its caller endShift destructures them and
the history page consumes them; the revision producing them is missing from
the source tree.  The two definitions below are therefore modelled from the
specification instead of translated from source code. -/

/-- Modelled from the spec: the list of resolved percentages of the
non-suppressed minute instants of the walk (one entry of 60 accounted seconds
per worked minute).  The walk, the suppression rule and the resolver are the
source embeddings above; only the collection of percentages is spec-modelled
(spec 4.2: accumulate 60 seconds into rateSegments[percent] per worked
minute). -/
def workedMinutePercents (startT : ℕ) (endOpt : Option ℕ)
    (breaks : List BreakRecord) (cfg : AppSettings) (now : ℕ) : List ℚ :=
  ((walkSteps startT (jsOrNat endOpt now)).filter
      (fun t => ¬ onBreakAt false now breaks cfg.scheduledBreaks t)).map
    fun t => (getEffectiveHourlyRate t cfg).percentage

/-- Modelled from the spec: the rateSegments of a finalized shift — one
segment per distinct percent value carrying 60 seconds per worked minute at
that percent, sorted ascending by percent (spec 4.2: output rateSegments is a
mapping from distinct percent value to total seconds at that percent, sorted
ascending by percent). -/
def rateSegmentsOf (startT : ℕ) (endOpt : Option ℕ) (breaks : List BreakRecord)
    (cfg : AppSettings) (now : ℕ) : List RateSegment :=
  let ps := workedMinutePercents startT endOpt breaks cfg now
  (List.insertionSort (· ≤ ·) ps.dedup).map fun p =>
    { percentage := p, durationSeconds := 60 * ps.count p }

/-! ## ShiftStateMachine (TimerProvider, src/contexts/TimerContext.tsx)

The provider state is embedded as a record; every action is a pure function
from old state (plus the clock value and the settings) to new state.  The
persistence useEffect that mirrors (currentShift, status, unused time) into
the three localStorage keys after each batch of updates is applied once at
the end of every action that updates state; an action whose guard fails
performs no state update, so the effect does not re-run and the state is
returned verbatim.  The tick-management useEffect that zeroes the display
fields once status is idle and the shift is gone is folded into the two
actions that reach that configuration (endShift, resetActiveShift). -/

/-- The TimerStatus union type. -/
inductive TimerStatus
  | idle
  | working
  | on_break
  | on_scheduled_break
deriving DecidableEq, Repr

/-- The activeScheduledBreakInfo payload of an active shift. -/
structure ActiveBreakInfo where
  id : String
  name : Option String
  originalDurationSeconds : ℕ
  scheduledStartTime : HM
  scheduledEndTime : HM
deriving DecidableEq, Repr

/-- The ActiveShift managed by the provider (interface ActiveShift, a partial
Shift: startTime and baseWageAtStart may be absent in a persisted value). -/
structure ActiveShift where
  id : String
  startTime : Option ℕ
  breaks : List BreakRecord
  baseWageAtStart : Option ℚ
  activeScheduledBreakInfo : Option ActiveBreakInfo
deriving DecidableEq, Repr

/-- The provider state: the React state fields plus the history collaborator
and the three persisted localStorage keys (none models a removed key). -/
structure AppState where
  status : TimerStatus
  currentShift : Option ActiveShift
  elapsedWorkTime : ℕ
  elapsedBreakTime : ℕ
  scheduledBreakCountdown : Option ℕ
  lastUnusedScheduledBreakTime : ℕ
  currentEarnings : ℚ
  effectiveHourlyRate : ℚ
  history : List Shift
  storedShift : Option ActiveShift
  storedStatus : Option TimerStatus
  storedUnused : Option ℕ
deriving DecidableEq, Repr

/-- The state the provider starts from (before any recovery). -/
def initialState : AppState :=
  { status := .idle, currentShift := none, elapsedWorkTime := 0,
    elapsedBreakTime := 0, scheduledBreakCountdown := none,
    lastUnusedScheduledBreakTime := 0, currentEarnings := 0,
    effectiveHourlyRate := 0, history := [], storedShift := none,
    storedStatus := none, storedUnused := none }

/-- The persistence useEffect: with a non-idle status and a live shift all
three keys are written; otherwise the shift and status keys are removed and
the unused-time key is left alone. -/
def persistEffect (s : AppState) : AppState :=
  if s.status ≠ .idle ∧ s.currentShift ≠ none then
    { s with storedShift := s.currentShift, storedStatus := some s.status,
             storedUnused := some s.lastUnusedScheduledBreakTime }
  else
    { s with storedShift := none, storedStatus := none }

/-- The open-record predicate used by the recovery effect, the trigger check
and the closing maps: an automatic record for the given scheduled-break id
with no (truthy) end time. -/
def openScheduledPred (sbId : String) (b : BreakRecord) : Bool :=
  b.isScheduled ∧ b.scheduledBreakId = some sbId ∧ ¬ jsTruthyNat b.endTime

/-- The map closing every open automatic record of the given scheduled-break
id at the given instant (used on automatic-break expiry and early end). -/
def closeScheduledMatching (now : ℕ) (sbId : String)
    (breaks : List BreakRecord) : List BreakRecord :=
  breaks.map fun b =>
    if openScheduledPred sbId b then { b with endTime := some now } else b

/-- The outcome of the recovery useEffect that matters for the recovery
claims: the restored status, shift, countdown and banked unused time. -/
structure RecoveryOutcome where
  status : TimerStatus
  currentShift : Option ActiveShift
  scheduledBreakCountdown : Option ℕ
  lastUnusedScheduledBreakTime : ℕ
deriving DecidableEq, Repr

/-- The recovery useEffect (run once at start): restore the persisted pair
when the status is non-idle and a startTime is present; in the
on_scheduled_break case with an activeScheduledBreakInfo, recompute the
countdown from the matching open automatic record against the wall clock, or
repair to working when no such record exists. -/
def recoverPersistedState (persistedShift : Option ActiveShift)
    (persistedStatus : Option TimerStatus) (persistedUnused : ℕ)
    (now : ℕ) : RecoveryOutcome :=
  let base : RecoveryOutcome :=
    { status := .idle, currentShift := none, scheduledBreakCountdown := none,
      lastUnusedScheduledBreakTime := persistedUnused }
  match persistedShift, persistedStatus with
  | some sh, some st =>
    if jsTruthyNat sh.startTime ∧ st ≠ .idle then
      match st, sh.activeScheduledBreakInfo with
      | .on_scheduled_break, some info =>
        match sh.breaks.find? (openScheduledPred info.id) with
        | some activeBreakRecordInstance =>
          let expectedBreakEndTimeMs : ℤ :=
            (activeBreakRecordInstance.startTime : ℤ) +
              (info.originalDurationSeconds : ℤ) * 1000
          let remainingCountdownSec : ℕ :=
            (max 0 ((expectedBreakEndTimeMs - (now : ℤ)).fdiv 1000)).toNat
          { base with
            status := st
            currentShift := some sh
            scheduledBreakCountdown := some remainingCountdownSec }
        | none =>
          { base with
            status := .working
            currentShift := some { sh with activeScheduledBreakInfo := none }
            scheduledBreakCountdown := none }
      | _, _ => { base with status := st, currentShift := some sh }
    else base
  | _, _ => base

/-! ### BreakScheduler (checkAndTriggerScheduledBreaks) -/

/-- Whether the current weekday is in the day-set of a scheduled break and
the current minute lies in its half-open window. -/
def windowMatches (sb : ScheduledBreak) (now : ℕ) : Bool :=
  jsGetDay now ∈ sb.days ∧
  sb.startTime.toMinutes ≤ minuteOfDay now ∧
  minuteOfDay now < sb.endTime.toMinutes

/-- Whether a closed automatic record for the given scheduled-break id was
started on the current calendar day (check 3 of the trigger loop). -/
def hasCompletedRecordToday (breaks : List BreakRecord) (sbId : String)
    (now : ℕ) : Bool :=
  breaks.any fun b =>
    b.isScheduled ∧ b.scheduledBreakId = some sbId ∧ jsTruthyNat b.endTime ∧
    sameDate b.startTime now

/-- The window length in seconds, (endMinutes - startMinutes) * 60.  The
truncated subtraction yields 0 exactly when the JavaScript value would be
non-positive, which the trigger skips defensively. -/
def sbDurationSeconds (sb : ScheduledBreak) : ℕ :=
  (sb.endTime.toMinutes - sb.startTime.toMinutes) * 60

/-- A scheduled break fires iff its window matches now and none of the three
exclusions of the trigger loop applies and its duration is positive.  The
loop skips an entry exactly when one of these conjuncts fails, so the entry
that fires is the first eligible one in configuration order. -/
def sbEligible (sh : ActiveShift) (now : ℕ) (sb : ScheduledBreak) : Bool :=
  windowMatches sb now ∧
  ¬ (sh.activeScheduledBreakInfo.map ActiveBreakInfo.id = some sb.id) ∧
  ¬ sh.breaks.any (openScheduledPred sb.id) ∧
  ¬ hasCompletedRecordToday sh.breaks sb.id now ∧
  0 < sbDurationSeconds sb

/-- checkAndTriggerScheduledBreaks: while working, the first eligible
scheduled break (configuration order) fires — it appends an open automatic
record, installs the activeScheduledBreakInfo payload, moves to
on_scheduled_break, sets the countdown to the window length and zeroes the
banked unused time. -/
def checkAndTriggerScheduledBreaks (now : ℕ) (settings : AppSettings)
    (s : AppState) : AppState :=
  match s.currentShift with
  | none => s
  | some sh =>
    if ¬ jsTruthyNat sh.startTime ∨ settings.scheduledBreaks = [] ∨
        s.status ≠ .working then s
    else
      match settings.scheduledBreaks.find? (sbEligible sh now) with
      | none => s
      | some sb =>
        let newBreakRecord : BreakRecord :=
          { startTime := now, endTime := none, isScheduled := true,
            scheduledBreakId := some sb.id, scheduledBreakName := sb.name }
        let payload : ActiveBreakInfo :=
          { id := sb.id, name := sb.name,
            originalDurationSeconds := sbDurationSeconds sb,
            scheduledStartTime := sb.startTime,
            scheduledEndTime := sb.endTime }
        { s with
          currentShift := some
            { sh with
              breaks := sh.breaks ++ [newBreakRecord]
              activeScheduledBreakInfo := some payload }
          status := .on_scheduled_break
          scheduledBreakCountdown := some (sbDurationSeconds sb)
          lastUnusedScheduledBreakTime := 0
          storedUnused := some 0 }

/-! ### Tick (calculateCurrentTimersAndEarnings and the interval) -/

/-- The manual-break milliseconds summed by calculateCurrentTimersAndEarnings:
for each non-automatic record, its end is endTime when truthy, else now when
this is the active manual break (on_break status and last position), else 0;
positive spans are accumulated. -/
def manualBreakMsAt (status : TimerStatus) (now : ℕ)
    (breaks : List BreakRecord) : ℕ :=
  breaks.foldl
    (fun acc br =>
      if br.isScheduled then acc
      else
        let breakEnd : ℕ :=
          jsOrNat br.endTime
            (if status = .on_break ∧ breaks ≠ [] ∧
                (breaks.getLast?.map BreakRecord.startTime) = some br.startTime
             then now else 0)
        if br.startTime < breakEnd then acc + (breakEnd - br.startTime)
        else acc)
    0

/-- calculateCurrentTimersAndEarnings: refresh live earnings and rate from
the calculator, the elapsed-work display, the elapsed-manual-break display,
and in on_scheduled_break decrement the countdown, closing the automatic
break at zero. -/
def calculateCurrentTimersAndEarnings (now : ℕ) (settings : AppSettings)
    (s : AppState) : AppState :=
  match s.currentShift with
  | none => s
  | some sh =>
    if ¬ jsTruthyNat sh.startTime then s
    else
      let startT := sh.startTime.getD 0
      let tempShiftForCalc : Shift :=
        { id := sh.id, startTime := startT, endTime := some now,
          breaks := sh.breaks,
          baseWageAtStart := jsOrRat sh.baseWageAtStart settings.baseWage,
          totalEarnings := none, rateSegments := none,
          unusedScheduledBreakSeconds := none }
      let res := calculateShiftEarnings tempShiftForCalc settings true now
      let work := (now - startT - manualBreakMsAt s.status now sh.breaks) / 1000
      let s1 :=
        { s with
          currentEarnings := res.totalEarnings
          effectiveHourlyRate := res.finalEffectiveRate
          elapsedWorkTime := work }
      let s2 :=
        if s.status = .on_break then
          match sh.breaks.find?
              (fun b => ¬ b.isScheduled ∧ ¬ jsTruthyNat b.endTime) with
          | some activeManualBreak =>
            { s1 with elapsedBreakTime := (now - activeManualBreak.startTime) / 1000 }
          | none => s1
        else { s1 with elapsedBreakTime := 0 }
      if s.status = .on_scheduled_break then
        match s.scheduledBreakCountdown with
        | none => s2
        | some prevCountdown =>
          let newCountdown := prevCountdown - 1
          if newCountdown = 0 then
            match sh.activeScheduledBreakInfo with
            | some info =>
              { s2 with
                currentShift := some
                  { sh with
                    breaks := closeScheduledMatching now info.id sh.breaks
                    activeScheduledBreakInfo := none }
                status := .working
                scheduledBreakCountdown := none }
            | none =>
              { s2 with
                currentShift := none
                status := .working
                scheduledBreakCountdown := none }
          else { s2 with scheduledBreakCountdown := some newCountdown }
      else s2

/-- One tick of the one-second interval (running only while non-idle):
refresh timers and earnings, then, if working, check the scheduled-break
trigger; the persistence effect runs after the batch. -/
def tick (now : ℕ) (settings : AppSettings) (s : AppState) : AppState :=
  if s.status = .idle then s
  else
    let s1 := calculateCurrentTimersAndEarnings now settings s
    let s2 :=
      if s.status = .working then checkAndTriggerScheduledBreaks now settings s1
      else s1
    persistEffect s2

/-! ### User actions -/

/-- startShift: only from idle; creates the snapshot, moves to working,
resets all counters and the banked unused time. -/
def startShift (now : ℕ) (settings : AppSettings) (s : AppState) : AppState :=
  if s.status ≠ .idle then s
  else
    persistEffect
      { s with
        currentShift := some
          { id := "shift_" ++ toString now, startTime := some now,
            breaks := [], baseWageAtStart := some settings.baseWage,
            activeScheduledBreakInfo := none }
        status := .working
        elapsedWorkTime := 0
        elapsedBreakTime := 0
        currentEarnings := 0
        scheduledBreakCountdown := none
        lastUnusedScheduledBreakTime := 0
        storedUnused := some 0 }

/-- The in-place mutation of endShift on the last break record: set its end
time to now when it has none (the source writes breaks[length-1].endTime). -/
def closeLastBreakIfOpen (now : ℕ) (breaks : List BreakRecord) :
    List BreakRecord :=
  match breaks.getLast? with
  | none => breaks
  | some b =>
    if ¬ jsTruthyNat b.endTime then
      breaks.dropLast ++ [{ b with endTime := some now }]
    else breaks

/-- endShift: from any non-idle state with a truthy startTime; force-closes a
trailing open break, runs the final (non-live) earnings calculation, attaches
rateSegments and the banked unused seconds (when positive), appends the
finalized shift to the front of the history and returns to idle.  The
rateSegments computation is the spec-modelled one (see rateSegmentsOf). -/
def endShift (now : ℕ) (settings : AppSettings) (s : AppState) : AppState :=
  match s.currentShift with
  | none => s
  | some sh =>
    if s.status = .idle ∨ ¬ jsTruthyNat sh.startTime then s
    else
      let startT := sh.startTime.getD 0
      let closedBreaks :=
        if (s.status = .on_break ∨ s.status = .on_scheduled_break) ∧
            sh.breaks ≠ [] then
          closeLastBreakIfOpen now sh.breaks
        else sh.breaks
      let shiftForCalc : Shift :=
        { id := sh.id, startTime := startT, endTime := some now,
          breaks := closedBreaks,
          baseWageAtStart := jsOrRat sh.baseWageAtStart settings.baseWage,
          totalEarnings := none, rateSegments := none,
          unusedScheduledBreakSeconds := none }
      let res := calculateShiftEarnings shiftForCalc settings false now
      let finalShift : Shift :=
        { shiftForCalc with
          totalEarnings := some res.totalEarnings
          rateSegments :=
            some (rateSegmentsOf startT (some now) closedBreaks settings now)
          unusedScheduledBreakSeconds :=
            if 0 < s.lastUnusedScheduledBreakTime then
              some s.lastUnusedScheduledBreakTime
            else none }
      persistEffect
        { s with
          status := .idle
          currentShift := none
          lastUnusedScheduledBreakTime := 0
          history := finalShift :: s.history
          elapsedWorkTime := 0
          elapsedBreakTime := 0
          currentEarnings := 0
          effectiveHourlyRate := 0
          scheduledBreakCountdown := none }

/-- startManualBreak: only while working with a live shift; appends an open
manual record and moves to on_break. -/
def startManualBreak (now : ℕ) (s : AppState) : AppState :=
  match s.currentShift with
  | none => s
  | some sh =>
    if s.status ≠ .working then s
    else
      persistEffect
        { s with
          currentShift := some
            { sh with
              breaks := sh.breaks ++
                [{ startTime := now, endTime := none, isScheduled := false,
                   scheduledBreakId := none, scheduledBreakName := none }] }
          status := .on_break
          elapsedBreakTime := 0 }

/-- endManualBreak: only while on_break with at least one record; closes the
last record when it is an open manual one and returns to working. -/
def endManualBreak (now : ℕ) (s : AppState) : AppState :=
  match s.currentShift with
  | none => s
  | some sh =>
    if s.status ≠ .on_break ∨ sh.breaks = [] then s
    else
      persistEffect
        { s with
          currentShift := some
            { sh with
              breaks :=
                match sh.breaks.getLast? with
                | none => sh.breaks
                | some b =>
                  if ¬ b.isScheduled ∧ ¬ jsTruthyNat b.endTime then
                    sh.breaks.dropLast ++ [{ b with endTime := some now }]
                  else sh.breaks }
          status := .working }

/-- endScheduledBreakEarly: only while on_scheduled_break with an
activeScheduledBreakInfo and a countdown; banks the remaining countdown into
the unused-time counter when positive, closes the open automatic record and
returns to working with no countdown. -/
def endScheduledBreakEarly (now : ℕ) (s : AppState) : AppState :=
  match s.currentShift, s.scheduledBreakCountdown with
  | some sh, some remainingTime =>
    match sh.activeScheduledBreakInfo with
    | none => s
    | some info =>
      if s.status ≠ .on_scheduled_break then s
      else
        let newUnusedTime :=
          if 0 < remainingTime then
            s.lastUnusedScheduledBreakTime + remainingTime
          else s.lastUnusedScheduledBreakTime
        persistEffect
          { s with
            currentShift := some
              { sh with
                breaks := closeScheduledMatching now info.id sh.breaks
                activeScheduledBreakInfo := none }
            status := .working
            scheduledBreakCountdown := none
            lastUnusedScheduledBreakTime := newUnusedTime }
  | _, _ => s

/-- resetActiveShift: discard the snapshot without recording history, remove
all three persisted keys and reset every display field. -/
def resetActiveShift (s : AppState) : AppState :=
  { s with
    status := .idle
    currentShift := none
    lastUnusedScheduledBreakTime := 0
    storedShift := none
    storedStatus := none
    storedUnused := none
    elapsedWorkTime := 0
    elapsedBreakTime := 0
    currentEarnings := 0
    effectiveHourlyRate := 0
    scheduledBreakCountdown := none }

/-! ### Reachability -/

/-- The actions of the shift state machine, each carrying the clock value it
observes. -/
inductive Action
  | startShift (now : ℕ)
  | endShift (now : ℕ)
  | startManualBreak (now : ℕ)
  | endManualBreak (now : ℕ)
  | endScheduledBreakEarly (now : ℕ)
  | resetActiveShift
  | tick (now : ℕ)

/-- Apply one action under the settings current for its tick cycle. -/
def applyAction (settings : AppSettings) : Action → AppState → AppState
  | .startShift now, s => startShift now settings s
  | .endShift now, s => endShift now settings s
  | .startManualBreak now, s => startManualBreak now s
  | .endManualBreak now, s => endManualBreak now s
  | .endScheduledBreakEarly now, s => endScheduledBreakEarly now s
  | .resetActiveShift, s => resetActiveShift s
  | .tick now, s => tick now settings s

/-- The states reachable from the initial state by user actions and ticks
(the settings may differ from step to step). -/
inductive Reachable : AppState → Prop
  | init : Reachable initialState
  | step (a : Action) (settings : AppSettings) {s : AppState} :
      Reachable s → Reachable (applyAction settings a s)

/-! ## The structural break invariant -/

/-- The number of open records (no end time at all) in a break list. -/
def openCount (l : List BreakRecord) : ℕ :=
  l.countP fun b => b.endTime = none

/-- The number of open automatic records in a break list. -/
def openAutoCount (l : List BreakRecord) : ℕ :=
  l.countP fun b => b.isScheduled ∧ b.endTime = none

/-- The shape of the shift snapshot in each status: no snapshot when idle, no
open record while working, exactly one trailing open manual record on a
manual break, and exactly one trailing open automatic record matching the
activeScheduledBreakInfo on an automatic break. -/
def ShiftShape : TimerStatus → Option ActiveShift → Prop
  | .idle, osh => osh = none
  | .working, osh => ∃ sh, osh = some sh ∧ openCount sh.breaks = 0
  | .on_break, osh =>
      ∃ sh bs b, osh = some sh ∧ sh.breaks = bs ++ [b] ∧ openCount bs = 0 ∧
        b.endTime = none ∧ b.isScheduled = false
  | .on_scheduled_break, osh =>
      ∃ sh info bs b, osh = some sh ∧
        sh.activeScheduledBreakInfo = some info ∧ sh.breaks = bs ++ [b] ∧
        openCount bs = 0 ∧ b.endTime = none ∧ b.isScheduled = true ∧
        b.scheduledBreakId = some info.id

/-- The machine invariant. -/
def Inv (s : AppState) : Prop := ShiftShape s.status s.currentShift

theorem persistEffect_status (s : AppState) :
    (persistEffect s).status = s.status := by
  unfold persistEffect; split <;> rfl

theorem persistEffect_currentShift (s : AppState) :
    (persistEffect s).currentShift = s.currentShift := by
  unfold persistEffect; split <;> rfl

theorem persistEffect_countdown (s : AppState) :
    (persistEffect s).scheduledBreakCountdown = s.scheduledBreakCountdown := by
  unfold persistEffect; split <;> rfl

theorem persistEffect_unused (s : AppState) :
    (persistEffect s).lastUnusedScheduledBreakTime =
      s.lastUnusedScheduledBreakTime := by
  unfold persistEffect; split <;> rfl

theorem persistEffect_history (s : AppState) :
    (persistEffect s).history = s.history := by
  unfold persistEffect; split <;> rfl

theorem inv_persistEffect {s : AppState} (h : Inv s) : Inv (persistEffect s) := by
  unfold Inv
  rw [persistEffect_status, persistEffect_currentShift]
  exact h

theorem openCount_closed_of_zero {l : List BreakRecord} (h : openCount l = 0) :
    ∀ b ∈ l, b.endTime ≠ none := by
  intro b hb
  have := (List.countP_eq_zero.mp h) b hb
  simpa using this

theorem closeScheduledMatching_openCount {now : ℕ} {sbId : String}
    {l : List BreakRecord} (h : ∀ b ∈ l, b.endTime ≠ none) :
    openCount (closeScheduledMatching now sbId l) = 0 := by
  rw [openCount, List.countP_eq_zero]
  intro b hb
  rw [closeScheduledMatching, List.mem_map] at hb
  obtain ⟨a, ha, rfl⟩ := hb
  by_cases hp : openScheduledPred sbId a
  · simp [hp]
  · rw [if_neg hp]
    simpa using h a ha

theorem closeScheduledMatching_concat_openCount {now : ℕ} {sbId : String}
    {bs : List BreakRecord} {b : BreakRecord} (hbs : openCount bs = 0)
    (hb : b.endTime = none) (hsched : b.isScheduled = true)
    (hid : b.scheduledBreakId = some sbId) :
    openCount (closeScheduledMatching now sbId (bs ++ [b])) = 0 := by
  rw [closeScheduledMatching, List.map_append]
  rw [openCount, List.countP_append]
  have h1 : (bs.map fun x =>
      if openScheduledPred sbId x then { x with endTime := some now } else x).countP
      (fun x => decide (x.endTime = none)) = 0 := by
    have := @closeScheduledMatching_openCount now sbId bs
      (openCount_closed_of_zero hbs)
    rwa [closeScheduledMatching, openCount] at this
  have h2 : openScheduledPred sbId b = true := by
    rw [openScheduledPred]
    simp [hsched, hid, hb, jsTruthyNat]
  simp [h1, h2]

theorem calc_proj {now : ℕ} {cfg : AppSettings} {s : AppState}
    (h : s.status ≠ TimerStatus.on_scheduled_break) :
    (calculateCurrentTimersAndEarnings now cfg s).status = s.status ∧
    (calculateCurrentTimersAndEarnings now cfg s).currentShift = s.currentShift ∧
    (calculateCurrentTimersAndEarnings now cfg s).scheduledBreakCountdown =
      s.scheduledBreakCountdown ∧
    (calculateCurrentTimersAndEarnings now cfg s).lastUnusedScheduledBreakTime =
      s.lastUnusedScheduledBreakTime ∧
    (calculateCurrentTimersAndEarnings now cfg s).history = s.history := by
  unfold calculateCurrentTimersAndEarnings
  rcases hsh : s.currentShift with _ | sh
  · exact ⟨rfl, hsh, rfl, rfl, rfl⟩
  · simp only [if_neg h]
    refine ⟨?_, ?_, ?_, ?_, ?_⟩ <;>
      exact by
        split
        · first | rfl | exact hsh
        · (repeat' split) <;> first | rfl | exact hsh

theorem inv_calc {now : ℕ} {cfg : AppSettings} {s : AppState} (h : Inv s) :
    Inv (calculateCurrentTimersAndEarnings now cfg s) := by
  by_cases hsch : s.status = TimerStatus.on_scheduled_break
  case neg =>
    obtain ⟨h1, h2, _, _, _⟩ := @calc_proj now cfg s hsch
    unfold Inv
    rw [h1, h2]
    exact h
  case pos =>
    obtain ⟨st, csh, ew, eb, cd, lu, ce, er, hist, k1, k2, k3⟩ := s
    simp only at hsch
    subst hsch
    unfold Inv at h ⊢
    obtain ⟨sh, info, bs, b, hshift, hinfo, hbreaks, hbs, hbend, hbsched, hbid⟩ := h
    simp only at hshift
    subst hshift
    simp only [calculateCurrentTimersAndEarnings]
    split
    · exact ⟨sh, info, bs, b, rfl, hinfo, hbreaks, hbs, hbend, hbsched, hbid⟩
    · cases cd with
      | none =>
        exact ⟨sh, info, bs, b, rfl, hinfo, hbreaks, hbs, hbend, hbsched, hbid⟩
      | some c =>
        by_cases hc : c - 1 = 0
        · simp only [if_pos hc, hinfo]
          refine ⟨_, rfl, ?_⟩
          rw [hbreaks]
          exact closeScheduledMatching_concat_openCount hbs hbend hbsched hbid
        · simp only [if_neg hc]
          exact ⟨sh, info, bs, b, rfl, hinfo, hbreaks, hbs, hbend, hbsched, hbid⟩

theorem inv_trigger {now : ℕ} {cfg : AppSettings} {s : AppState} (h : Inv s) :
    Inv (checkAndTriggerScheduledBreaks now cfg s) := by
  obtain ⟨st, csh, ew, eb, cd, lu, ce, er, hist, k1, k2, k3⟩ := s
  unfold Inv at h ⊢
  cases csh with
  | none => exact h
  | some sh =>
    simp only [checkAndTriggerScheduledBreaks]
    split
    · exact h
    next hng =>
      have hw : st = TimerStatus.working := by
        by_contra hne
        exact hng (Or.inr (Or.inr hne))
      subst hw
      obtain ⟨sh0, hsh0, hopen⟩ := h
      have hshx : sh0 = sh := by injection hsh0 with hh; exact hh.symm
      subst hshx
      split
      · exact ⟨sh0, rfl, hopen⟩
      case h_2 sb hfind =>
        exact ⟨{ sh0 with
                 breaks := sh0.breaks ++
                   [{ startTime := now, endTime := none, isScheduled := true,
                      scheduledBreakId := some sb.id,
                      scheduledBreakName := sb.name }]
                 activeScheduledBreakInfo := some
                   { id := sb.id, name := sb.name,
                     originalDurationSeconds := sbDurationSeconds sb,
                     scheduledStartTime := sb.startTime,
                     scheduledEndTime := sb.endTime } },
               { id := sb.id, name := sb.name,
                 originalDurationSeconds := sbDurationSeconds sb,
                 scheduledStartTime := sb.startTime,
                 scheduledEndTime := sb.endTime },
               sh0.breaks,
               { startTime := now, endTime := none, isScheduled := true,
                 scheduledBreakId := some sb.id, scheduledBreakName := sb.name },
               rfl, rfl, rfl, hopen, rfl, rfl, rfl⟩

theorem inv_tick {now : ℕ} {cfg : AppSettings} {s : AppState} (h : Inv s) :
    Inv (tick now cfg s) := by
  unfold tick
  split
  · exact h
  · apply inv_persistEffect
    split
    · exact inv_trigger (inv_calc h)
    · exact inv_calc h

theorem inv_startShift {now : ℕ} {cfg : AppSettings} {s : AppState} (h : Inv s) :
    Inv (startShift now cfg s) := by
  unfold startShift
  split
  · exact h
  · exact inv_persistEffect ⟨_, rfl, rfl⟩

theorem inv_startManualBreak {now : ℕ} {s : AppState} (h : Inv s) :
    Inv (startManualBreak now s) := by
  obtain ⟨st, csh, ew, eb, cd, lu, ce, er, hist, k1, k2, k3⟩ := s
  unfold Inv at h ⊢
  cases csh with
  | none => exact h
  | some sh =>
    simp only [startManualBreak]
    split
    · exact h
    next hng =>
      have hw : st = TimerStatus.working := not_not.mp hng
      subst hw
      obtain ⟨sh0, hsh0, hopen⟩ := h
      have hshx : sh0 = sh := by injection hsh0 with hh; exact hh.symm
      subst hshx
      exact inv_persistEffect
        ⟨{ sh0 with
           breaks := sh0.breaks ++
             [{ startTime := now, endTime := none, isScheduled := false,
                scheduledBreakId := none, scheduledBreakName := none }] },
         sh0.breaks,
         { startTime := now, endTime := none, isScheduled := false,
           scheduledBreakId := none, scheduledBreakName := none },
         rfl, rfl, hopen, rfl, rfl⟩

theorem openCount_concat_closed {bs : List BreakRecord} {b : BreakRecord}
    (hbs : openCount bs = 0) (hb : b.endTime ≠ none) :
    openCount (bs ++ [b]) = 0 := by
  rw [openCount, List.countP_append]
  rw [openCount] at hbs
  simp [hbs, hb]

theorem inv_endManualBreak {now : ℕ} {s : AppState} (h : Inv s) :
    Inv (endManualBreak now s) := by
  obtain ⟨st, csh, ew, eb, cd, lu, ce, er, hist, k1, k2, k3⟩ := s
  unfold Inv at h ⊢
  cases csh with
  | none => exact h
  | some sh =>
    simp only [endManualBreak]
    split
    · exact h
    next hng =>
      have hb2 : st = TimerStatus.on_break := by
        by_contra hne
        exact hng (Or.inl hne)
      subst hb2
      obtain ⟨sh0, bs, b, hsh0, hbreaks, hbs, hbend, hbsched⟩ := h
      have hshx : sh0 = sh := by injection hsh0 with hh; exact hh.symm
      subst hshx
      apply inv_persistEffect
      refine ⟨_, rfl, ?_⟩
      rw [hbreaks, List.getLast?_concat]
      simp only [hbsched, hbend, jsTruthyNat, List.dropLast_concat]
      simp only [Bool.false_eq_true, not_false_eq_true, and_self, if_true]
      exact openCount_concat_closed hbs (by simp)

theorem inv_endScheduledBreakEarly {now : ℕ} {s : AppState} (h : Inv s) :
    Inv (endScheduledBreakEarly now s) := by
  obtain ⟨st, csh, ew, eb, cd, lu, ce, er, hist, k1, k2, k3⟩ := s
  unfold Inv at h ⊢
  cases csh with
  | none => exact h
  | some sh =>
    cases cd with
    | none => exact h
    | some remaining =>
      rcases hinfo : sh.activeScheduledBreakInfo with _ | info
      · simp only [endScheduledBreakEarly, hinfo]
        exact h
      · simp only [endScheduledBreakEarly, hinfo]
        split
        · exact h
        next hng =>
          have hsched : st = TimerStatus.on_scheduled_break := not_not.mp hng
          subst hsched
          obtain ⟨sh0, info0, bs, b, hsh0, hinfo0, hbreaks, hbs, hbend, hbsched,
            hbid⟩ := h
          obtain rfl : sh0 = sh := by injection hsh0 with hh; exact hh.symm
          obtain rfl : info0 = info := by
            rw [hinfo] at hinfo0; injection hinfo0 with hh; exact hh.symm
          apply inv_persistEffect
          refine ⟨_, rfl, ?_⟩
          rw [hbreaks]
          exact closeScheduledMatching_concat_openCount hbs hbend hbsched hbid

theorem inv_endShift {now : ℕ} {cfg : AppSettings} {s : AppState} (h : Inv s) :
    Inv (endShift now cfg s) := by
  obtain ⟨st, csh, ew, eb, cd, lu, ce, er, hist, k1, k2, k3⟩ := s
  unfold Inv at h ⊢
  cases csh with
  | none => exact h
  | some sh =>
    simp only [endShift]
    split
    · exact h
    · exact inv_persistEffect rfl

theorem inv_resetActiveShift {s : AppState} (h : Inv s) :
    Inv (resetActiveShift s) := rfl

theorem openAutoCount_le_openCount (l : List BreakRecord) :
    openAutoCount l ≤ openCount l := by
  apply List.countP_mono_left
  intro b _ hb
  simp only [decide_eq_true_eq] at hb ⊢
  exact hb.2

theorem shape_openAuto {st : TimerStatus} {osh : Option ActiveShift}
    (h : ShiftShape st osh) :
    ∀ sh, osh = some sh → openAutoCount sh.breaks ≤ 1 := by
  intro sh hsh
  cases st with
  | idle =>
    rw [h] at hsh
    exact absurd hsh (by simp)
  | working =>
    obtain ⟨sh0, hs0, hopen⟩ := h
    rw [hs0] at hsh
    obtain rfl : sh0 = sh := by injection hsh
    calc openAutoCount sh0.breaks ≤ openCount sh0.breaks :=
          openAutoCount_le_openCount _
      _ = 0 := hopen
      _ ≤ 1 := by omega
  | on_break =>
    obtain ⟨sh0, bs, b, hs0, hbreaks, hbs, _, _⟩ := h
    rw [hs0] at hsh
    obtain rfl : sh0 = sh := by injection hsh
    rw [hbreaks, openAutoCount, List.countP_append]
    have h1 : bs.countP (fun b => decide (b.isScheduled = true ∧ b.endTime = none)) ≤ 0 := by
      have := openAutoCount_le_openCount bs
      rw [openAutoCount] at this
      omega
    have h2 : List.countP (fun b => decide (b.isScheduled = true ∧ b.endTime = none)) [b] ≤ 1 :=
      le_trans (List.countP_le_length _) (by simp)
    omega
  | on_scheduled_break =>
    obtain ⟨sh0, info, bs, b, hs0, _, hbreaks, hbs, _, _, _⟩ := h
    rw [hs0] at hsh
    obtain rfl : sh0 = sh := by injection hsh
    rw [hbreaks, openAutoCount, List.countP_append]
    have h1 : bs.countP (fun b => decide (b.isScheduled = true ∧ b.endTime = none)) ≤ 0 := by
      have := openAutoCount_le_openCount bs
      rw [openAutoCount] at this
      omega
    have h2 : List.countP (fun b => decide (b.isScheduled = true ∧ b.endTime = none)) [b] ≤ 1 :=
      le_trans (List.countP_le_length _) (by simp)
    omega

theorem sum_map_mul_left_nat (l : List ℚ) (f : ℚ → ℕ) (c : ℕ) :
    (l.map fun p => c * f p).sum = c * (l.map f).sum := by
  induction l with
  | nil => simp
  | cons a l ih => simp [ih, Nat.mul_add]

theorem rateSegmentsOf_map_percentage (startT : ℕ) (endOpt : Option ℕ)
    (breaks : List BreakRecord) (cfg : AppSettings) (now : ℕ) :
    (rateSegmentsOf startT endOpt breaks cfg now).map RateSegment.percentage =
      List.insertionSort (· ≤ ·)
        (workedMinutePercents startT endOpt breaks cfg now).dedup := by
  rw [rateSegmentsOf, List.map_map]
  exact List.map_id _

theorem rateSegmentsOf_sorted (startT : ℕ) (endOpt : Option ℕ)
    (breaks : List BreakRecord) (cfg : AppSettings) (now : ℕ) :
    ((rateSegmentsOf startT endOpt breaks cfg now).map
      RateSegment.percentage).Sorted (· ≤ ·) := by
  rw [rateSegmentsOf_map_percentage]
  exact List.sorted_insertionSort _ _

theorem rateSegmentsOf_nodup (startT : ℕ) (endOpt : Option ℕ)
    (breaks : List BreakRecord) (cfg : AppSettings) (now : ℕ) :
    ((rateSegmentsOf startT endOpt breaks cfg now).map
      RateSegment.percentage).Nodup := by
  rw [rateSegmentsOf_map_percentage]
  exact ((List.perm_insertionSort _ _).nodup_iff).mpr (List.nodup_dedup _)

theorem rateSegmentsOf_duration (startT : ℕ) (endOpt : Option ℕ)
    (breaks : List BreakRecord) (cfg : AppSettings) (now : ℕ) :
    ∀ seg ∈ rateSegmentsOf startT endOpt breaks cfg now,
      seg.durationSeconds =
        60 * (workedMinutePercents startT endOpt breaks cfg now).count
          seg.percentage := by
  intro seg hseg
  rw [rateSegmentsOf] at hseg
  obtain ⟨p, _, rfl⟩ := List.mem_map.mp hseg
  rfl

theorem rateSegmentsOf_mem_iff (startT : ℕ) (endOpt : Option ℕ)
    (breaks : List BreakRecord) (cfg : AppSettings) (now : ℕ) (p : ℚ) :
    p ∈ (rateSegmentsOf startT endOpt breaks cfg now).map
        RateSegment.percentage ↔
      p ∈ workedMinutePercents startT endOpt breaks cfg now := by
  rw [rateSegmentsOf_map_percentage,
    (List.perm_insertionSort _ _).mem_iff, List.mem_dedup]

theorem rateSegmentsOf_sum (startT : ℕ) (endOpt : Option ℕ)
    (breaks : List BreakRecord) (cfg : AppSettings) (now : ℕ) :
    ((rateSegmentsOf startT endOpt breaks cfg now).map
      RateSegment.durationSeconds).sum =
      60 * (workedMinutePercents startT endOpt breaks cfg now).length := by
  rw [rateSegmentsOf, List.map_map]
  have h1 : (RateSegment.durationSeconds ∘ fun p =>
      ({ percentage := p,
         durationSeconds :=
           60 * (workedMinutePercents startT endOpt breaks cfg now).count p } :
        RateSegment)) =
      fun p => 60 * (workedMinutePercents startT endOpt breaks cfg now).count p :=
    rfl
  rw [h1,
    ((List.perm_insertionSort (· ≤ ·)
        (workedMinutePercents startT endOpt breaks cfg now).dedup).map _).sum_eq,
    sum_map_mul_left_nat, List.sum_map_count_dedup_eq_length]

theorem find?_first {α : Type} {p : α → Bool} :
    ∀ {l : List α} {b : α}, l.find? p = some b →
      ∃ l1 l2, l = l1 ++ b :: l2 ∧ ∀ x ∈ l1, p x = false := by
  intro l
  induction l with
  | nil => intro b hb; simp at hb
  | cons a l ih =>
    intro b hb
    rw [List.find?_cons] at hb
    rcases hpa : p a with _ | _
    · rw [hpa] at hb
      obtain ⟨l1, l2, hl, hfail⟩ := ih hb
      refine ⟨a :: l1, l2, by rw [hl]; rfl, ?_⟩
      intro x hx
      rcases List.mem_cons.mp hx with rfl | hx2
      · exact hpa
      · exact hfail x hx2
    · rw [hpa] at hb
      obtain rfl : a = b := by injection hb
      exact ⟨[], l, rfl, by simp⟩

/-- A sequence of ticks (one state refresh per observed clock value). -/
def applyTicks (cfg : AppSettings) (times : List ℕ) (s : AppState) : AppState :=
  times.foldl (fun st n => tick n cfg st) s

theorem calc_sched_proj {now : ℕ} {cfg : AppSettings} {s : AppState}
    {sh : ActiveShift} {c : ℕ} (hsh : s.currentShift = some sh)
    (hts : jsTruthyNat sh.startTime = true)
    (hst : s.status = TimerStatus.on_scheduled_break)
    (hcd : s.scheduledBreakCountdown = some c) (hc : c - 1 ≠ 0) :
    (calculateCurrentTimersAndEarnings now cfg s).status =
      TimerStatus.on_scheduled_break ∧
    (calculateCurrentTimersAndEarnings now cfg s).currentShift = some sh ∧
    (calculateCurrentTimersAndEarnings now cfg s).scheduledBreakCountdown =
      some (c - 1) ∧
    (calculateCurrentTimersAndEarnings now cfg s).lastUnusedScheduledBreakTime =
      s.lastUnusedScheduledBreakTime ∧
    (calculateCurrentTimersAndEarnings now cfg s).history = s.history := by
  obtain ⟨st, csh, ew, eb, cd, lu, ce, er, hist, k1, k2, k3⟩ := s
  simp only at hsh hst hcd
  subst hsh; subst hst; subst hcd
  simp only [calculateCurrentTimersAndEarnings]
  rw [if_neg (by simp [hts])]
  simp only [if_neg hc]
  exact ⟨rfl, rfl, rfl, rfl, rfl⟩

theorem tick_sched_proj {now : ℕ} {cfg : AppSettings} {s : AppState}
    {sh : ActiveShift} {c : ℕ} (hsh : s.currentShift = some sh)
    (hts : jsTruthyNat sh.startTime = true)
    (hst : s.status = TimerStatus.on_scheduled_break)
    (hcd : s.scheduledBreakCountdown = some c) (hc : c - 1 ≠ 0) :
    (tick now cfg s).status = TimerStatus.on_scheduled_break ∧
    (tick now cfg s).currentShift = some sh ∧
    (tick now cfg s).scheduledBreakCountdown = some (c - 1) ∧
    (tick now cfg s).lastUnusedScheduledBreakTime =
      s.lastUnusedScheduledBreakTime ∧
    (tick now cfg s).history = s.history := by
  obtain ⟨h1, h2, h3, h4, h5⟩ := @calc_sched_proj now cfg s sh c
    hsh hts hst hcd hc
  have hgoal : tick now cfg s =
      persistEffect (calculateCurrentTimersAndEarnings now cfg s) := by
    unfold tick
    rw [hst]
    rfl
  rw [hgoal, persistEffect_status, persistEffect_currentShift,
    persistEffect_countdown, persistEffect_unused, persistEffect_history]
  exact ⟨h1, h2, h3, h4, h5⟩

theorem applyTicks_sched_proj {cfg : AppSettings} :
    ∀ (times : List ℕ) {s : AppState} {sh : ActiveShift} {c : ℕ},
      s.currentShift = some sh →
      jsTruthyNat sh.startTime = true →
      s.status = TimerStatus.on_scheduled_break →
      s.scheduledBreakCountdown = some c →
      times.length < c →
      (applyTicks cfg times s).status = TimerStatus.on_scheduled_break ∧
      (applyTicks cfg times s).currentShift = some sh ∧
      (applyTicks cfg times s).scheduledBreakCountdown =
        some (c - times.length) ∧
      (applyTicks cfg times s).lastUnusedScheduledBreakTime =
        s.lastUnusedScheduledBreakTime := by
  intro times
  induction times with
  | nil =>
    intro s sh c hsh hts hst hcd _
    exact ⟨hst, hsh, by simpa using hcd, rfl⟩
  | cons n rest ih =>
    intro s sh c hsh hts hst hcd hlen
    have hlen2 : rest.length + 1 < c := by simpa using hlen
    have hc : c - 1 ≠ 0 := by omega
    obtain ⟨h1, h2, h3, h4, _⟩ := @tick_sched_proj n cfg s sh c
      hsh hts hst hcd hc
    have hstep := ih (s := tick n cfg s) h2 hts h1 h3 (by omega)
    obtain ⟨g1, g2, g3, g4⟩ := hstep
    have happ : applyTicks cfg (n :: rest) s =
        applyTicks cfg rest (tick n cfg s) := rfl
    rw [happ]
    refine ⟨g1, g2, ?_, by rw [g4, h4]⟩
    rw [g3]
    congr 1
    simp only [List.length_cons]
    omega

theorem reachable_inv {s : AppState} (h : Reachable s) : Inv s := by
  induction h with
  | init => exact rfl
  | step a settings hr ih =>
    cases a with
    | startShift now => exact inv_startShift ih
    | endShift now => exact inv_endShift ih
    | startManualBreak now => exact inv_startManualBreak ih
    | endManualBreak now => exact inv_endManualBreak ih
    | endScheduledBreakEarly now => exact inv_endScheduledBreakEarly ih
    | resetActiveShift => exact inv_resetActiveShift ih
    | tick now => exact inv_tick ih

/-! ## Specification-side formulations used by the claims -/

/-- The percentages of the bonus windows whose half-open minute window
contains the time-of-day of the instant. -/
def applicableBonuses (t : ℕ) (s : AppSettings) : List ℚ :=
  (s.hourlyAllowances.filter fun ha =>
    decide (ha.startTime.toMinutes ≤ minuteOfDay t ∧
      minuteOfDay t < ha.endTime.toMinutes)).map HourlyAllowance.percentage

/-- The maximum of a list of rationals, 0 when the list is empty (the
specification wording: the maximum bonusPercent among matching windows, 0
when none match). -/
def maxOr0 : List ℚ → ℚ
  | [] => 0
  | p :: ps => ps.foldl max p

/-- The rate resolution exactly as claim C2 words it: day component
dayMultiplier[weekday] with 100 only when ABSENT, plus the maximum
bonusPercent among matching windows (0 when none); rate = base * percent /
100. -/
def resolveClaimLiteral (t : ℕ) (s : AppSettings) : RateInfo :=
  let day : ℚ := (s.dayAllowances (jsGetDay t)).getD 100
  let bonus : ℚ := maxOr0 (applicableBonuses t s)
  { rate := s.baseWage * ((day + bonus) / 100), percentage := day + bonus }

/-- The amended rate resolution: the day component falls back to 100 also for
a stored 0 (JavaScript falsy), and the bonus is the maximum of 0 and the
matching bonusPercent values. -/
def resolveAmendedSpec (t : ℕ) (s : AppSettings) : RateInfo :=
  let day : ℚ :=
    match s.dayAllowances (jsGetDay t) with
    | none => 100
    | some p => if p = 0 then 100 else p
  let bonus : ℚ := max 0 (maxOr0 (applicableBonuses t s))
  { rate := s.baseWage * ((day + bonus) / 100), percentage := day + bonus }

/-- A walk instant is covered by a recorded (closed) break interval. -/
def coveredByRecordedInterval (breaks : List BreakRecord) (t : ℕ) : Prop :=
  ∃ br ∈ breaks, ∃ e, br.endTime = some e ∧ br.startTime ≤ t ∧ t < e

instance (breaks : List BreakRecord) (t : ℕ) :
    Decidable (coveredByRecordedInterval breaks t) := by
  unfold coveredByRecordedInterval
  infer_instance

/-- The minute-walk earnings formula exactly as claim C3 words it: a minute
is suppressed only by a MANUAL recorded interval covering it or by a
configured scheduled window; every other minute contributes rate/60. -/
def claimC3Earnings (shift : Shift) (cfg : AppSettings) (now : ℕ) : ℚ :=
  toFixed2
    (((walkSteps shift.startTime (jsOrNat shift.endTime now)).map fun t =>
      if (∃ br ∈ shift.breaks, br.isScheduled = false ∧ ∃ e,
            br.endTime = some e ∧ br.startTime ≤ t ∧ t < e) ∨
          onScheduledWindow cfg.scheduledBreaks t then (0 : ℚ)
      else (getEffectiveHourlyRate t cfg).rate / 60).sum)

/-- The segment-sum value exactly as claim C1 words it: the total shift
duration minus all recorded break seconds, rounded down to whole minutes
(in seconds). -/
def claimC1FloorSeconds (shift : Shift) (now : ℕ) : ℕ :=
  let durSec := (jsOrNat shift.endTime now - shift.startTime) / 1000
  let breakSec := (shift.breaks.map fun br =>
    (br.endTime.getD br.startTime - br.startTime) / 1000).sum
  (durSec - breakSec) / 60 * 60

/-! ### Bridging lemmas -/

theorem foldl_max_max (l : List ℚ) :
    ∀ a b : ℚ, l.foldl max (max a b) = max a (l.foldl max b) := by
  induction l with
  | nil => intro a b; rfl
  | cons c l ih =>
    intro a b
    show l.foldl max (max (max a b) c) = max a (l.foldl max (max b c))
    rw [max_assoc, ih]

theorem foldl_max_eq_maxOr0 (l : List ℚ) :
    l.foldl max 0 = max 0 (maxOr0 l) := by
  cases l with
  | nil => simp [maxOr0]
  | cons p ps =>
    show ps.foldl max (max 0 p) = max 0 (maxOr0 (p :: ps))
    rw [foldl_max_max]
    rfl

theorem hourlyBonusLoop_eq_filter (timeMin : ℕ) :
    ∀ (has : List HourlyAllowance) (a : ℚ),
      has.foldl
        (fun acc ha =>
          if ha.startTime.toMinutes ≤ timeMin ∧ timeMin < ha.endTime.toMinutes
          then max acc ha.percentage else acc) a =
      ((has.filter fun ha =>
          decide (ha.startTime.toMinutes ≤ timeMin ∧
            timeMin < ha.endTime.toMinutes)).map
        HourlyAllowance.percentage).foldl max a := by
  intro has
  induction has with
  | nil => intro a; rfl
  | cons ha has ih =>
    intro a
    by_cases hcond : ha.startTime.toMinutes ≤ timeMin ∧ timeMin < ha.endTime.toMinutes
    · simp only [List.foldl_cons, if_pos hcond, List.filter_cons,
        decide_eq_true hcond, List.map_cons]
      exact ih (max a ha.percentage)
    · simp only [List.foldl_cons, if_neg hcond, List.filter_cons]
      rw [decide_eq_false hcond]
      exact ih a

theorem getEffectiveHourlyRate_eq_amended (t : ℕ) (s : AppSettings) :
    getEffectiveHourlyRate t s = resolveAmendedSpec t s := by
  unfold getEffectiveHourlyRate resolveAmendedSpec
  have hbonus : hourlyBonusLoop (minuteOfDay t) s.hourlyAllowances =
      max 0 (maxOr0 (applicableBonuses t s)) := by
    rw [hourlyBonusLoop, hourlyBonusLoop_eq_filter, applicableBonuses,
      foldl_max_eq_maxOr0]
  have hday : jsOrRat (s.dayAllowances (jsGetDay t)) 100 =
      (match s.dayAllowances (jsGetDay t) with
       | none => (100 : ℚ)
       | some p => if p = 0 then 100 else p) := rfl
  rw [hbonus, hday]

theorem foldl_skip_eq_sum {p : ℕ → Prop} [DecidablePred p] (f : ℕ → ℚ) :
    ∀ (l : List ℕ) (a : ℚ),
      l.foldl (fun acc t => if p t then acc else acc + f t) a =
        a + ((l.map fun t => if p t then (0 : ℚ) else f t).sum) := by
  intro l
  induction l with
  | nil => intro a; simp
  | cons t l ih =>
    intro a
    by_cases hp : p t
    · simp only [List.foldl_cons, if_pos hp, List.map_cons, List.sum_cons, ih]
      ring
    · simp only [List.foldl_cons, if_neg hp, List.map_cons, List.sum_cons, ih]
      ring

theorem tick_working_eq {now : ℕ} {cfg : AppSettings} {s : AppState}
    (hst : s.status = TimerStatus.working) :
    tick now cfg s =
      persistEffect (checkAndTriggerScheduledBreaks now cfg
        (calculateCurrentTimersAndEarnings now cfg s)) := by
  unfold tick
  rw [hst]
  rfl

theorem trigger_proj_fire {now : ℕ} {cfg : AppSettings} {s : AppState}
    {sh : ActiveShift} {sb : ScheduledBreak}
    (hsh : s.currentShift = some sh)
    (hts : jsTruthyNat sh.startTime = true)
    (hne : cfg.scheduledBreaks ≠ [])
    (hst : s.status = TimerStatus.working)
    (hfind : cfg.scheduledBreaks.find? (sbEligible sh now) = some sb) :
    (checkAndTriggerScheduledBreaks now cfg s).status =
      TimerStatus.on_scheduled_break ∧
    (checkAndTriggerScheduledBreaks now cfg s).currentShift = some
      { sh with
        breaks := sh.breaks ++
          [{ startTime := now, endTime := none, isScheduled := true,
             scheduledBreakId := some sb.id, scheduledBreakName := sb.name }]
        activeScheduledBreakInfo := some
          { id := sb.id, name := sb.name,
            originalDurationSeconds := sbDurationSeconds sb,
            scheduledStartTime := sb.startTime,
            scheduledEndTime := sb.endTime } } ∧
    (checkAndTriggerScheduledBreaks now cfg s).scheduledBreakCountdown =
      some (sbDurationSeconds sb) ∧
    (checkAndTriggerScheduledBreaks now cfg s).lastUnusedScheduledBreakTime =
      0 ∧
    (checkAndTriggerScheduledBreaks now cfg s).history = s.history := by
  obtain ⟨st, csh, ew, eb, cd, lu, ce, er, hist, k1, k2, k3⟩ := s
  simp only at hsh hst
  subst hsh; subst hst
  simp only [checkAndTriggerScheduledBreaks]
  rw [if_neg (by simp [hts, hne])]
  rw [hfind]
  exact ⟨rfl, rfl, rfl, rfl, rfl⟩

theorem endEarly_proj {now : ℕ} {s : AppState} {sh : ActiveShift}
    {info : ActiveBreakInfo} {r : ℕ}
    (hsh : s.currentShift = some sh)
    (hcd : s.scheduledBreakCountdown = some r)
    (hinfo : sh.activeScheduledBreakInfo = some info)
    (hst : s.status = TimerStatus.on_scheduled_break) :
    (endScheduledBreakEarly now s).status = TimerStatus.working ∧
    (endScheduledBreakEarly now s).currentShift = some
      { sh with breaks := closeScheduledMatching now info.id sh.breaks,
                activeScheduledBreakInfo := none } ∧
    (endScheduledBreakEarly now s).scheduledBreakCountdown = none ∧
    (endScheduledBreakEarly now s).lastUnusedScheduledBreakTime =
      (if 0 < r then s.lastUnusedScheduledBreakTime + r
       else s.lastUnusedScheduledBreakTime) ∧
    (endScheduledBreakEarly now s).history = s.history := by
  obtain ⟨st, csh, ew, eb, cd, lu, ce, er, hist, k1, k2, k3⟩ := s
  simp only at hsh hst hcd
  subst hsh; subst hst; subst hcd
  simp only [endScheduledBreakEarly, hinfo]
  rw [if_neg (by simp)]
  rw [persistEffect_status, persistEffect_currentShift, persistEffect_countdown,
    persistEffect_unused, persistEffect_history]
  by_cases hr : 0 < r
  · simp [if_pos hr]
  · simp [if_neg hr]

/-! ## Concrete instances used by examples, witnesses and counterexamples

Timestamps are built on day index 3 (1970-01-04), which was a Sunday, so
jsGetDay gives 0 for them. -/

/-- Sunday midnight. -/
def sundayMidnight : ℕ := 3 * 86400000

/-- Sunday 19:00, the instant of the rate-resolution example. -/
def sunday1900 : ℕ := sundayMidnight + 19 * 3600000

/-- Sunday noon. -/
def sundayNoon : ℕ := sundayMidnight + 12 * 3600000

/-- Settings of the rate-resolution example: base 10, Sunday multiplier 200,
bonus window 18:00-22:00 at +25. -/
def cfgRateExample : AppSettings :=
  { baseWage := 10
    dayAllowances := fun d => if d = 0 then some 200 else some 100
    hourlyAllowances :=
      [{ id := "ha1", startTime := ⟨18, 0⟩, endTime := ⟨22, 0⟩, percentage := 25 }]
    scheduledBreaks := [] }

/-- Settings with the Sunday multiplier explicitly stored as 0. -/
def cfgZeroSunday : AppSettings :=
  { baseWage := 10
    dayAllowances := fun d => if d = 0 then some 0 else some 100
    hourlyAllowances := []
    scheduledBreaks := [] }

/-- Plain settings: base 10, no multipliers, no bonuses, no breaks. -/
def cfgPlain : AppSettings :=
  { baseWage := 10
    dayAllowances := fun _ => none
    hourlyAllowances := []
    scheduledBreaks := [] }

/-- A working state holding a fresh shift that started at the given instant
(used to exercise endShift). -/
def mkWorkingState (startT : ℕ) (base : ℚ) : AppState :=
  { status := .working
    currentShift := some
      { id := "s", startTime := some startT, breaks := [],
        baseWageAtStart := some base, activeScheduledBreakInfo := none }
    elapsedWorkTime := 0, elapsedBreakTime := 0
    scheduledBreakCountdown := none, lastUnusedScheduledBreakTime := 0
    currentEarnings := 0, effectiveHourlyRate := 0, history := []
    storedShift := none, storedStatus := none, storedUnused := none }

/-! ## Claim C2 -/

/-- C2 counterexample input: the claim prescribes day component 0 for a
Sunday multiplier stored as 0, but the source resolves 100 (JavaScript ||
treats 0 as absent). -/
theorem claim_C2_counterexample :
    getEffectiveHourlyRate sundayNoon cfgZeroSunday ≠
      resolveClaimLiteral sundayNoon cfgZeroSunday ∧
    (resolveClaimLiteral sundayNoon cfgZeroSunday).percentage = 0 ∧
    (getEffectiveHourlyRate sundayNoon cfgZeroSunday).percentage = 100 := by
  refine ⟨?_, ?_, ?_⟩ <;>
    norm_num [getEffectiveHourlyRate, resolveClaimLiteral, cfgZeroSunday,
      hourlyBonusLoop, applicableBonuses, maxOr0, jsOrRat, jsGetDay, dayIndex,
      minuteOfDay, sundayNoon, sundayMidnight, minuteMs, dayMs, RateInfo.mk.injEq]

/-- C2 (amended): the resolved percentage is the day multiplier for the
weekday — with 100 substituted when the entry is absent OR stored as 0 —
plus the maximum of 0 and the bonusPercent values of all windows whose
half-open window contains the time-of-day, and the rate is base times
percent over 100; in particular base 10, Sunday 200, window 18:00-22:00 at
+25 resolves Sunday 19:00 to percent 225 and rate 22.50. -/
theorem claim_C2 :
    (∀ (t : ℕ) (s : AppSettings),
      getEffectiveHourlyRate t s = resolveAmendedSpec t s) ∧
    (getEffectiveHourlyRate sunday1900 cfgRateExample).percentage = 225 ∧
    (getEffectiveHourlyRate sunday1900 cfgRateExample).rate = 45 / 2 := by
  refine ⟨getEffectiveHourlyRate_eq_amended, ?_, ?_⟩ <;>
    norm_num [getEffectiveHourlyRate, cfgRateExample, hourlyBonusLoop,
      jsOrRat, jsGetDay, dayIndex, minuteOfDay, HM.toMinutes, sunday1900,
      sundayMidnight, minuteMs, dayMs, List.foldl]

/-! ## Claim C10 -/

/-- C10: a day multiplier stored as 0 resolves exactly like an absent entry
(the || fallback applies to any falsy stored value). -/
theorem claim_C10 (t : ℕ) (s : AppSettings)
    (h0 : s.dayAllowances (jsGetDay t) = some 0) :
    getEffectiveHourlyRate t s =
      getEffectiveHourlyRate t
        { s with dayAllowances :=
            fun d => if d = jsGetDay t then none else s.dayAllowances d } := by
  unfold getEffectiveHourlyRate
  rw [h0]
  simp [jsOrRat]

/-- C10 witness: the zero-Sunday settings resolve like the same settings with
the Sunday entry removed. -/
theorem claim_C10_witness :
    getEffectiveHourlyRate sundayNoon cfgZeroSunday =
      getEffectiveHourlyRate sundayNoon
        { cfgZeroSunday with dayAllowances :=
            fun d => if d = jsGetDay sundayNoon then none
                     else cfgZeroSunday.dayAllowances d } :=
  claim_C10 sundayNoon cfgZeroSunday (by
    norm_num [cfgZeroSunday, jsGetDay, dayIndex, sundayNoon, sundayMidnight,
      dayMs])

/-! ## Claim C9 -/

/-- C9: startManualBreak and endShift are complete no-ops from idle — the
whole observable state (timer state, snapshot, displays, history and the
persisted keys) is returned unchanged. -/
theorem claim_C9 (s : AppState) (now : ℕ) (cfg : AppSettings)
    (h : s.status = TimerStatus.idle) :
    startManualBreak now s = s ∧ endShift now cfg s = s := by
  obtain ⟨st, csh, ew, eb, cd, lu, ce, er, hist, k1, k2, k3⟩ := s
  simp only at h
  subst h
  cases csh <;> exact ⟨rfl, rfl⟩

/-- C9 witness: both actions leave the initial state untouched. -/
theorem claim_C9_witness :
    startManualBreak 5 initialState = initialState ∧
    endShift 5 cfgPlain initialState = initialState :=
  claim_C9 initialState 5 cfgPlain rfl

/-! ## Claim C8 -/

/-- The shift of the C8 counterexample: Sunday 17:00:00.000 to Sunday
18:00:30.000 (the end instant is not minute-aligned). -/
def shiftC8 : Shift :=
  { id := "s8", startTime := sundayMidnight + 17 * 3600000
    endTime := some (sundayMidnight + 18 * 3600000 + 30000)
    breaks := [], baseWageAtStart := 10, totalEarnings := none
    rateSegments := none, unusedScheduledBreakSeconds := none }

/-- Settings of the C8 counterexample: flat days, window 18:00-22:00 at
+25. -/
def cfgC8 : AppSettings :=
  { baseWage := 10
    dayAllowances := fun _ => some 100
    hourlyAllowances :=
      [{ id := "ha1", startTime := ⟨18, 0⟩, endTime := ⟨22, 0⟩, percentage := 25 }]
    scheduledBreaks := [] }

/-- C8 counterexample input: with asOf = Sunday 18:00:30, the source samples
the final rate at asOf minus ONE MILLISECOND (inside the bonus window, 125%),
while the claim prescribes sampling one one-minute step earlier (17:59:30,
outside the window, 100%). -/
theorem claim_C8_counterexample :
    (calculateShiftEarnings shiftC8 cfgC8 false 999).finalTotalPercentage =
      125 ∧
    (getEffectiveHourlyRate
      (max shiftC8.startTime (jsOrNat shiftC8.endTime 999 - minuteMs))
      cfgC8).percentage = 100 ∧
    (125 : ℚ) ≠ 100 := by
  refine ⟨?_, ?_, by norm_num⟩ <;>
    norm_num [calculateShiftEarnings, getEffectiveHourlyRate, shiftC8, cfgC8,
      hourlyBonusLoop, jsOrRat, jsOrNat, jsGetDay, dayIndex, minuteOfDay,
      HM.toMinutes, sundayMidnight, minuteMs, dayMs, List.foldl]

/-- C8 (amended): the reported finalPercent is the rate resolution at
max(startTime, asOf - 1 millisecond) — the instant just before asOf, not one
billing step before it and not an average — and the reported finalRate is
that resolution rate rounded to cents. -/
theorem claim_C8 (shift : Shift) (cfg : AppSettings) (isLive : Bool)
    (now : ℕ) (h : shift.startTime ≠ 0) :
    (calculateShiftEarnings shift cfg isLive now).finalTotalPercentage =
      (getEffectiveHourlyRate
        (max shift.startTime
          ((if isLive then now else jsOrNat shift.endTime now) - 1))
        cfg).percentage ∧
    (calculateShiftEarnings shift cfg isLive now).finalEffectiveRate =
      toFixed2 (getEffectiveHourlyRate
        (max shift.startTime
          ((if isLive then now else jsOrNat shift.endTime now) - 1))
        cfg).rate := by
  unfold calculateShiftEarnings
  rw [if_neg h]
  exact ⟨rfl, rfl⟩

/-- C8 witness: the amended sampling instant evaluated on the counterexample
shift. -/
theorem claim_C8_witness :
    (calculateShiftEarnings shiftC8 cfgC8 false 999).finalTotalPercentage =
      (getEffectiveHourlyRate
        (max shiftC8.startTime
          ((if false then 999 else jsOrNat shiftC8.endTime 999) - 1))
        cfgC8).percentage ∧
    (calculateShiftEarnings shiftC8 cfgC8 false 999).finalEffectiveRate =
      toFixed2 (getEffectiveHourlyRate
        (max shiftC8.startTime
          ((if false then 999 else jsOrNat shiftC8.endTime 999) - 1))
        cfgC8).rate :=
  claim_C8 shiftC8 cfgC8 false 999 (by norm_num [shiftC8, sundayMidnight])

/-! ## Claims C4 and C5 (recovery) -/

/-- C4: recovering a persisted on_scheduled_break state whose snapshot holds
the matching open automatic record yields the wall-clock countdown
max(0, floor((intervalStart + originalDurationSeconds*1000 - now)/1000)); in
particular at now = intervalStart + delta*1000 the countdown is
originalDurationSeconds - delta, clamped at 0. -/
theorem claim_C4 (sh : ActiveShift) (info : ActiveBreakInfo)
    (rec : BreakRecord) (pu now : ℕ)
    (hts : jsTruthyNat sh.startTime = true)
    (hinfo : sh.activeScheduledBreakInfo = some info)
    (hfind : sh.breaks.find? (openScheduledPred info.id) = some rec) :
    (recoverPersistedState (some sh) (some TimerStatus.on_scheduled_break)
        pu now).scheduledBreakCountdown =
      some (Int.toNat (max 0
        (((rec.startTime : ℤ) + (info.originalDurationSeconds : ℤ) * 1000 -
          (now : ℤ)).fdiv 1000))) ∧
    (∀ dlt : ℕ, now = rec.startTime + dlt * 1000 →
      (recoverPersistedState (some sh) (some TimerStatus.on_scheduled_break)
          pu now).scheduledBreakCountdown =
        some (info.originalDurationSeconds - dlt)) := by
  have hmain :
      (recoverPersistedState (some sh) (some TimerStatus.on_scheduled_break)
          pu now).scheduledBreakCountdown =
        some (Int.toNat (max 0
          (((rec.startTime : ℤ) + (info.originalDurationSeconds : ℤ) * 1000 -
            (now : ℤ)).fdiv 1000))) := by
    simp only [recoverPersistedState, hinfo, hfind]
    rw [if_pos (by simp [hts])]
  refine ⟨hmain, ?_⟩
  intro dlt hnow
  rw [hmain, hnow]
  congr 1
  have harith : ((rec.startTime : ℤ) + (info.originalDurationSeconds : ℤ) * 1000 -
      ((rec.startTime + dlt * 1000 : ℕ) : ℤ)) =
      ((info.originalDurationSeconds : ℤ) - (dlt : ℤ)) * 1000 := by
    push_cast
    ring
  rw [harith, Int.mul_fdiv_cancel _ (by norm_num)]
  omega

/-- C5: recovering a persisted on_scheduled_break state whose snapshot has NO
matching open automatic record does not stay on_scheduled_break: it is
repaired to working, the activeScheduledBreakInfo is cleared and the
countdown is cleared. -/
theorem claim_C5 (sh : ActiveShift) (info : ActiveBreakInfo) (pu now : ℕ)
    (hts : jsTruthyNat sh.startTime = true)
    (hinfo : sh.activeScheduledBreakInfo = some info)
    (hfind : sh.breaks.find? (openScheduledPred info.id) = none) :
    (recoverPersistedState (some sh) (some TimerStatus.on_scheduled_break)
        pu now).status = TimerStatus.working ∧
    (recoverPersistedState (some sh) (some TimerStatus.on_scheduled_break)
        pu now).currentShift =
      some { sh with activeScheduledBreakInfo := none } ∧
    (recoverPersistedState (some sh) (some TimerStatus.on_scheduled_break)
        pu now).scheduledBreakCountdown = none := by
  simp only [recoverPersistedState, hinfo, hfind]
  rw [if_pos (by simp [hts])]
  exact ⟨rfl, rfl, rfl⟩

/-- The activeScheduledBreakInfo payload of the recovery witnesses: a
30-minute break originally scheduled 10:00-10:30. -/
def infoC4 : ActiveBreakInfo :=
  { id := "b1", name := none, originalDurationSeconds := 1800,
    scheduledStartTime := ⟨10, 0⟩, scheduledEndTime := ⟨10, 30⟩ }

/-- The open automatic record of the C4 witness, started Sunday 10:00. -/
def recC4 : BreakRecord :=
  { startTime := sundayMidnight + 10 * 3600000, endTime := none,
    isScheduled := true, scheduledBreakId := some "b1",
    scheduledBreakName := none }

/-- The persisted snapshot of the C4 witness. -/
def shiftC4 : ActiveShift :=
  { id := "sh4", startTime := some (sundayMidnight + 9 * 3600000),
    breaks := [recC4], baseWageAtStart := some 10,
    activeScheduledBreakInfo := some infoC4 }

/-- C4 witness: recovering 600 seconds after the interval start yields a
countdown of 1800 - 600. -/
theorem claim_C4_witness :
    (recoverPersistedState (some shiftC4)
        (some TimerStatus.on_scheduled_break) 0
        (recC4.startTime + 600 * 1000)).scheduledBreakCountdown =
      some (infoC4.originalDurationSeconds - 600) :=
  (claim_C4 shiftC4 infoC4 recC4 0 (recC4.startTime + 600 * 1000)
      rfl rfl rfl).2 600 rfl

/-- The persisted snapshot of the C5 witness: the same shift but its only
record is already closed, so no open automatic record matches. -/
def shiftC5 : ActiveShift :=
  { id := "sh5", startTime := some (sundayMidnight + 9 * 3600000),
    breaks := [{ recC4 with endTime := some (recC4.startTime + 1000) }],
    baseWageAtStart := some 10,
    activeScheduledBreakInfo := some infoC4 }

/-- C5 witness: the corrupt snapshot recovers into working with no
countdown. -/
theorem claim_C5_witness :
    (recoverPersistedState (some shiftC5)
        (some TimerStatus.on_scheduled_break) 0 7).status =
      TimerStatus.working ∧
    (recoverPersistedState (some shiftC5)
        (some TimerStatus.on_scheduled_break) 0 7).currentShift =
      some { shiftC5 with activeScheduledBreakInfo := none } ∧
    (recoverPersistedState (some shiftC5)
        (some TimerStatus.on_scheduled_break) 0 7).scheduledBreakCountdown =
      none :=
  claim_C5 shiftC5 infoC4 0 7 rfl rfl (by
    simp [shiftC5, openScheduledPred, recC4, jsTruthyNat, List.find?])

/-! ## Claim C3 -/

theorem onBreakAt_closed_iff {now t : ℕ} {breaks : List BreakRecord}
    {sbs : List ScheduledBreak}
    (hclosed : ∀ br ∈ breaks, ∃ e, br.endTime = some e ∧ e ≠ 0) :
    onBreakAt false now breaks sbs t = true ↔
      (coveredByRecordedInterval breaks t ∨ onScheduledWindow sbs t = true) := by
  rw [onBreakAt, Bool.or_eq_true]
  apply or_congr_left
  rw [onRecordedBreak, List.any_eq_true]
  constructor
  · rintro ⟨br, hbr, hcond⟩
    obtain ⟨e, he, hne⟩ := hclosed br hbr
    simp only [decide_eq_true_eq] at hcond
    refine ⟨br, hbr, e, he, hcond.1, ?_⟩
    have hend : breakEndForCalc false now breaks br t = e := by
      rw [breakEndForCalc, if_neg (by simp), he, jsOrNat]
      simp [hne]
    rw [hend] at hcond
    exact hcond.2
  · rintro ⟨br, hbr, e, he, h1, h2⟩
    refine ⟨br, hbr, ?_⟩
    have hend : breakEndForCalc false now breaks br t = e := by
      obtain ⟨e2, he2, hne2⟩ := hclosed br hbr
      obtain rfl : e2 = e := by
        rw [he] at he2
        injection he2 with hh
        exact hh.symm
      rw [breakEndForCalc, if_neg (by simp), he, jsOrNat]
      simp [hne2]
    simp only [decide_eq_true_eq, hend]
    exact ⟨h1, h2⟩

/-- The example shift of C3: a 2-hour shift from Sunday midnight with one
closed 30-minute manual break from minute 30 to minute 60. -/
def shiftC3ex : Shift :=
  { id := "s3", startTime := sundayMidnight
    endTime := some (sundayMidnight + 7200000)
    breaks := [{ startTime := sundayMidnight + 1800000,
                 endTime := some (sundayMidnight + 3600000),
                 isScheduled := false, scheduledBreakId := none,
                 scheduledBreakName := none }]
    baseWageAtStart := 12, totalEarnings := none, rateSegments := none
    unusedScheduledBreakSeconds := none }

/-- Settings of the C3 example: base 12, every day at 100%, no bonuses. -/
def cfgC3ex : AppSettings :=
  { baseWage := 12
    dayAllowances := fun _ => some 100
    hourlyAllowances := []
    scheduledBreaks := [] }

/-- The counterexample shift of C3: a 1-hour shift from Sunday noon whose
automatic break record (12:10-12:40) extends past its configured window
(12:00-12:30), so minutes 12:30-12:39 are suppressed by the RECORD although
they lie in no manual interval and no configured window. -/
def shiftC3auto : Shift :=
  { id := "sa", startTime := sundayNoon
    endTime := some (sundayNoon + 3600000)
    breaks := [{ startTime := sundayNoon + 600000,
                 endTime := some (sundayNoon + 2400000),
                 isScheduled := true, scheduledBreakId := some "sb",
                 scheduledBreakName := none }]
    baseWageAtStart := 12, totalEarnings := none, rateSegments := none
    unusedScheduledBreakSeconds := none }

/-- Settings of the C3 counterexample: one scheduled window 12:00-12:30 on
Sundays. -/
def cfgC3auto : AppSettings :=
  { baseWage := 12
    dayAllowances := fun _ => some 100
    hourlyAllowances := []
    scheduledBreaks :=
      [{ id := "sb", name := none, startTime := ⟨12, 0⟩, endTime := ⟨12, 30⟩,
         days := [0] }] }

set_option maxRecDepth 8000 in
/-- C3 counterexample input: the source suppresses every minute covered by
ANY recorded interval (manual or automatic), so the automatic record
overrunning its window yields 4.00 while the claimed manual-or-window rule
yields 6.00. -/
theorem claim_C3_counterexample :
    (calculateShiftEarnings shiftC3auto cfgC3auto false 9).totalEarnings =
      4 ∧
    claimC3Earnings shiftC3auto cfgC3auto 9 = 6 ∧ (4 : ℚ) ≠ 6 := by
  refine ⟨?_, ?_, by norm_num⟩ <;>
    norm_num [calculateShiftEarnings, claimC3Earnings, getEffectiveHourlyRate,
      shiftC3auto, cfgC3auto, hourlyBonusLoop, onBreakAt, onRecordedBreak,
      onScheduledWindow, breakEndForCalc, jsOrRat, jsOrNat, jsTruthyNat,
      jsGetDay, dayIndex, minuteOfDay, HM.toMinutes, sundayNoon,
      sundayMidnight, minuteMs, dayMs, walkSteps, walkCount, toFixed2,
      List.range_succ, List.foldl, List.any_cons, List.any_nil]

set_option maxRecDepth 8000 in
/-- C3 (amended): for a finalized shift whose recorded breaks are all closed,
every minute-start instant covered by ANY recorded break interval (manual or
automatic) or by a configured scheduled window contributes zero, every other
minute contributes one sixtieth of the resolved rate (the reported total is
rounded to cents); the 2-hour / 30-minute-manual-break example yields
18.00. -/
theorem claim_C3 :
    (∀ (shift : Shift) (cfg : AppSettings) (now : ℕ),
      shift.startTime ≠ 0 →
      (∀ br ∈ shift.breaks, ∃ e, br.endTime = some e ∧ e ≠ 0) →
      (calculateShiftEarnings shift cfg false now).totalEarnings =
        toFixed2 (((walkSteps shift.startTime (jsOrNat shift.endTime now)).map
          fun t =>
            if coveredByRecordedInterval shift.breaks t ∨
                onScheduledWindow cfg.scheduledBreaks t then (0 : ℚ)
            else (getEffectiveHourlyRate t cfg).rate / 60).sum)) ∧
    (calculateShiftEarnings shiftC3ex cfgC3ex false 9).totalEarnings = 18 := by
  constructor
  · intro shift cfg now h hclosed
    unfold calculateShiftEarnings
    rw [if_neg h]
    simp only [Bool.false_eq_true, if_false]
    rw [foldl_skip_eq_sum, zero_add]
    congr 1
    congr 1
    apply List.map_congr_left
    intro t _
    exact if_congr (by rw [onBreakAt_closed_iff hclosed]) rfl rfl
  · norm_num [calculateShiftEarnings, getEffectiveHourlyRate, shiftC3ex,
      cfgC3ex, hourlyBonusLoop, onBreakAt, onRecordedBreak, onScheduledWindow,
      breakEndForCalc, jsOrRat, jsOrNat, jsTruthyNat, jsGetDay, dayIndex,
      minuteOfDay, HM.toMinutes, sundayMidnight, minuteMs, dayMs, walkSteps,
      walkCount, toFixed2, List.range_succ, List.foldl, List.any_cons,
      List.any_nil]

/-- C3 witness: the general characterization applied to the example shift
(all of whose breaks are closed). -/
theorem claim_C3_witness :
    (calculateShiftEarnings shiftC3ex cfgC3ex false 9).totalEarnings =
      toFixed2 (((walkSteps shiftC3ex.startTime
          (jsOrNat shiftC3ex.endTime 9)).map
        fun t =>
          if coveredByRecordedInterval shiftC3ex.breaks t ∨
              onScheduledWindow cfgC3ex.scheduledBreaks t then (0 : ℚ)
          else (getEffectiveHourlyRate t cfgC3ex).rate / 60).sum) :=
  claim_C3.1 shiftC3ex cfgC3ex 9
    (by norm_num [shiftC3ex, sundayMidnight])
    (by
      intro br hbr
      simp only [shiftC3ex, List.mem_singleton] at hbr
      subst hbr
      exact ⟨sundayMidnight + 3600000, rfl, by norm_num [sundayMidnight]⟩)

/-! ## Claim C1 -/

/-- The record finalized by endShift in the C1 counterexample: a 90-second
shift with no breaks.  Its two walk steps bank 120 segment-seconds, while
the claimed floor formula gives 60. -/
def c1CounterShift : Shift :=
  { id := "s", startTime := 60000, endTime := some 150000, breaks := []
    baseWageAtStart := 10, totalEarnings := some (33 / 100)
    rateSegments := some [{ percentage := 100, durationSeconds := 120 }]
    unusedScheduledBreakSeconds := none }

/-- C1 counterexample input: ending a 90-second shift banks one full segment
minute per started walk step (120 seconds), which differs from the claimed
total-duration-minus-breaks value rounded down to whole minutes (60). -/
theorem claim_C1_counterexample :
    (endShift 150000 cfgPlain (mkWorkingState 60000 10)).history =
      [c1CounterShift] ∧
    ((c1CounterShift.rateSegments.getD []).map
      RateSegment.durationSeconds).sum = 120 ∧
    claimC1FloorSeconds c1CounterShift 150000 = 60 ∧ (120 : ℕ) ≠ 60 := by
  refine ⟨?_, by norm_num [c1CounterShift],
    by norm_num [claimC1FloorSeconds, c1CounterShift, jsOrNat], by norm_num⟩
  norm_num [endShift, mkWorkingState, persistEffect, c1CounterShift,
    calculateShiftEarnings, rateSegmentsOf, workedMinutePercents,
    getEffectiveHourlyRate, cfgPlain, hourlyBonusLoop, onBreakAt,
    onRecordedBreak, onScheduledWindow, jsOrRat, jsOrNat, jsTruthyNat,
    jsGetDay, dayIndex, minuteOfDay, walkSteps, walkCount, toFixed2,
    closeLastBreakIfOpen, minuteMs, dayMs, List.range_succ, List.foldl,
    List.dedup_nil, List.dedup_cons_of_mem, List.dedup_cons_of_not_mem,
    List.insertionSort, List.orderedInsert, List.count_cons, List.count_nil,
    List.filter, Shift.mk.injEq]
  rfl

/-- C1 (amended): every shift finalized by endShift carries rateSegments —
one segment per distinct resolved percent, sorted ascending and without
duplicates, each holding 60 seconds per walk minute worked at that percent —
and the segment durations sum to 60 times the number of non-suppressed walk
steps (each started trailing minute counts in full).  For step-aligned
shifts this coincides with the claimed duration-minus-breaks floor value: a
3-minute break-free shift yields one segment of 180 seconds, equal to the
floor formula. -/
theorem claim_C1 :
    (∀ (s : AppState) (sh : ActiveShift) (now : ℕ) (cfg : AppSettings),
      s.currentShift = some sh → s.status ≠ TimerStatus.idle →
      jsTruthyNat sh.startTime = true →
      ∃ fs : Shift,
        (endShift now cfg s).history = fs :: s.history ∧
        fs.rateSegments =
          some (rateSegmentsOf fs.startTime (some now) fs.breaks cfg now) ∧
        ((rateSegmentsOf fs.startTime (some now) fs.breaks cfg now).map
          RateSegment.percentage).Sorted (· ≤ ·) ∧
        ((rateSegmentsOf fs.startTime (some now) fs.breaks cfg now).map
          RateSegment.percentage).Nodup ∧
        (∀ seg ∈ rateSegmentsOf fs.startTime (some now) fs.breaks cfg now,
          seg.durationSeconds =
            60 * (workedMinutePercents fs.startTime (some now) fs.breaks cfg
              now).count seg.percentage) ∧
        (∀ p : ℚ,
          p ∈ (rateSegmentsOf fs.startTime (some now) fs.breaks cfg now).map
            RateSegment.percentage ↔
          p ∈ workedMinutePercents fs.startTime (some now) fs.breaks cfg
            now) ∧
        ((rateSegmentsOf fs.startTime (some now) fs.breaks cfg now).map
          RateSegment.durationSeconds).sum =
          60 * (workedMinutePercents fs.startTime (some now) fs.breaks cfg
            now).length) ∧
    (rateSegmentsOf 60000 (some 240000) [] cfgPlain 240000 =
      [{ percentage := 100, durationSeconds := 180 }] ∧
     claimC1FloorSeconds
       { id := "a", startTime := 60000, endTime := some 240000, breaks := []
         baseWageAtStart := 10, totalEarnings := none, rateSegments := none
         unusedScheduledBreakSeconds := none } 240000 = 180) := by
  constructor
  · intro s sh now cfg hsh hst hts
    obtain ⟨st, csh, ew, eb, cd, lu, ce, er, hist, k1, k2, k3⟩ := s
    simp only at hsh hst
    subst hsh
    simp only [endShift]
    rw [if_neg (by simp [hst, hts])]
    rw [persistEffect_history]
    exact ⟨_, rfl, rfl, rateSegmentsOf_sorted _ _ _ _ _,
      rateSegmentsOf_nodup _ _ _ _ _, rateSegmentsOf_duration _ _ _ _ _,
      rateSegmentsOf_mem_iff _ _ _ _ _, rateSegmentsOf_sum _ _ _ _ _⟩
  · constructor
    · norm_num [rateSegmentsOf, workedMinutePercents, getEffectiveHourlyRate,
        cfgPlain, hourlyBonusLoop, onBreakAt, onRecordedBreak,
        onScheduledWindow, jsOrRat, jsOrNat, jsGetDay, dayIndex, minuteOfDay,
        walkSteps, walkCount, minuteMs, dayMs, List.range_succ, List.foldl,
        List.dedup_nil, List.dedup_cons_of_mem, List.dedup_cons_of_not_mem,
        List.insertionSort, List.orderedInsert, List.count_cons,
        List.count_nil, List.filter, RateSegment.mk.injEq]
    · norm_num [claimC1FloorSeconds, jsOrNat]

/-- C1 witness: the amended statement instantiated at the 90-second shift
ending of the counterexample. -/
theorem claim_C1_witness :
    ∃ fs : Shift,
      (endShift 150000 cfgPlain (mkWorkingState 60000 10)).history =
        fs :: (mkWorkingState 60000 10).history ∧
      fs.rateSegments =
        some (rateSegmentsOf fs.startTime (some 150000) fs.breaks cfgPlain
          150000) ∧
      ((rateSegmentsOf fs.startTime (some 150000) fs.breaks cfgPlain
        150000).map RateSegment.percentage).Sorted (· ≤ ·) ∧
      ((rateSegmentsOf fs.startTime (some 150000) fs.breaks cfgPlain
        150000).map RateSegment.percentage).Nodup ∧
      (∀ seg ∈ rateSegmentsOf fs.startTime (some 150000) fs.breaks cfgPlain
          150000,
        seg.durationSeconds =
          60 * (workedMinutePercents fs.startTime (some 150000) fs.breaks
            cfgPlain 150000).count seg.percentage) ∧
      (∀ p : ℚ,
        p ∈ (rateSegmentsOf fs.startTime (some 150000) fs.breaks cfgPlain
          150000).map RateSegment.percentage ↔
        p ∈ workedMinutePercents fs.startTime (some 150000) fs.breaks
          cfgPlain 150000) ∧
      ((rateSegmentsOf fs.startTime (some 150000) fs.breaks cfgPlain
        150000).map RateSegment.durationSeconds).sum =
        60 * (workedMinutePercents fs.startTime (some 150000) fs.breaks
          cfgPlain 150000).length :=
  claim_C1.1 (mkWorkingState 60000 10)
    { id := "s", startTime := some 60000, breaks := [],
      baseWageAtStart := some 10, activeScheduledBreakInfo := none }
    150000 cfgPlain rfl (by decide) rfl

/-! ## Claim C6 -/

/-- C6: in every reachable machine state at most one automatic break record
is open; the scheduled break that a trigger check fires is the first
eligible one in configuration order (all earlier entries fail the
eligibility checks); and a scheduled break with a closed record started on
the current calendar day (in particular one completed earlier inside the
same window occurrence) is never fired again by the trigger. -/
theorem claim_C6 :
    (∀ s : AppState, Reachable s → ∀ sh : ActiveShift,
      s.currentShift = some sh → openAutoCount sh.breaks ≤ 1) ∧
    (∀ (cfg : AppSettings) (sh : ActiveShift) (now : ℕ) (sb : ScheduledBreak),
      cfg.scheduledBreaks.find? (sbEligible sh now) = some sb →
      sbEligible sh now sb = true ∧
      ∃ l1 l2, cfg.scheduledBreaks = l1 ++ sb :: l2 ∧
        ∀ x ∈ l1, sbEligible sh now x = false) ∧
    (∀ (cfg : AppSettings) (sh : ActiveShift) (now : ℕ) (sb : ScheduledBreak)
      (b : BreakRecord), b ∈ sh.breaks → b.isScheduled = true →
      b.scheduledBreakId = some sb.id → jsTruthyNat b.endTime = true →
      sameDate b.startTime now = true →
      cfg.scheduledBreaks.find? (sbEligible sh now) ≠ some sb) := by
  refine ⟨?_, ?_, ?_⟩
  · intro s hr sh hsh
    exact shape_openAuto (reachable_inv hr) sh hsh
  · intro cfg sh now sb hfind
    exact ⟨List.find?_some hfind, find?_first hfind⟩
  · intro cfg sh now sb b hb hbs hbid hbe hbd hfind
    have he := List.find?_some hfind
    unfold sbEligible at he
    rw [decide_eq_true_eq] at he
    obtain ⟨_, _, _, hno, _⟩ := he
    apply hno
    rw [hasCompletedRecordToday, List.any_eq_true]
    exact ⟨b, hb, by simp [hbs, hbid, hbe, hbd]⟩

/-! ## Claim C7 — constants of the two-break scenario -/

/-- Sunday 10:00, the shift start and first trigger instant. -/
def t0C7 : ℕ := sundayMidnight + 10 * 3600000

/-- The first scheduled break: 10:00-10:30 every day (1800 seconds). -/
def sb1C7 : ScheduledBreak :=
  { id := "b1", name := some "B1", startTime := ⟨10, 0⟩, endTime := ⟨10, 30⟩,
    days := [0, 1, 2, 3, 4, 5, 6] }

/-- The second scheduled break: 11:00-11:30 every day (1800 seconds). -/
def sb2C7 : ScheduledBreak :=
  { id := "b2", name := some "B2", startTime := ⟨11, 0⟩, endTime := ⟨11, 30⟩,
    days := [0, 1, 2, 3, 4, 5, 6] }

/-- Settings of the two-break scenario. -/
def cfg7 : AppSettings :=
  { baseWage := 10
    dayAllowances := fun _ => some 100
    hourlyAllowances := []
    scheduledBreaks := [sb1C7, sb2C7] }

/-- The fresh snapshot created by startShift at Sunday 10:00. -/
def sh0C7 : ActiveShift :=
  { id := "shift_" ++ toString t0C7, startTime := some t0C7, breaks := [],
    baseWageAtStart := some (10 : ℚ), activeScheduledBreakInfo := none }

/-- The open record appended when the first break fires. -/
def rec1C7 : BreakRecord :=
  { startTime := t0C7, endTime := none, isScheduled := true,
    scheduledBreakId := some "b1", scheduledBreakName := some "B1" }

/-- The activeScheduledBreakInfo payload of the first break. -/
def p1C7 : ActiveBreakInfo :=
  { id := "b1", name := some "B1", originalDurationSeconds := 1800,
    scheduledStartTime := ⟨10, 0⟩, scheduledEndTime := ⟨10, 30⟩ }

/-- The snapshot while the first automatic break runs. -/
def sh1C7 : ActiveShift :=
  { sh0C7 with breaks := [rec1C7], activeScheduledBreakInfo := some p1C7 }

/-- The first record closed by the early end at 10:10. -/
def rec1cC7 : BreakRecord := { rec1C7 with endTime := some (t0C7 + 600000) }

/-- The snapshot after the early end of the first break. -/
def sh2C7 : ActiveShift :=
  { sh0C7 with breaks := [rec1cC7], activeScheduledBreakInfo := none }

/-- The open record appended when the second break fires at 11:00. -/
def rec2C7 : BreakRecord :=
  { startTime := t0C7 + 3600000, endTime := none, isScheduled := true,
    scheduledBreakId := some "b2", scheduledBreakName := some "B2" }

/-- The activeScheduledBreakInfo payload of the second break. -/
def p2C7 : ActiveBreakInfo :=
  { id := "b2", name := some "B2", originalDurationSeconds := 1800,
    scheduledStartTime := ⟨11, 0⟩, scheduledEndTime := ⟨11, 30⟩ }

/-- The snapshot while the second automatic break runs. -/
def sh3C7 : ActiveShift :=
  { sh2C7 with
    breaks := [rec1cC7, rec2C7]
    activeScheduledBreakInfo := some p2C7 }

/-- The scenario trajectory: start the shift at 10:00, fire the first break,
run its countdown for 600 ticks, end it early at 10:10, work until 11:00
when the second break fires, run it for 300 ticks, end it early at 11:05. -/
def c7s0 : AppState := startShift t0C7 cfg7 initialState

def c7s1 : AppState := tick t0C7 cfg7 c7s0

def c7s2 : AppState := applyTicks cfg7 (List.replicate 600 (t0C7 + 1000)) c7s1

def c7s3 : AppState := endScheduledBreakEarly (t0C7 + 600000) c7s2

def c7s4 : AppState := tick (t0C7 + 3600000) cfg7 c7s3

def c7s5 : AppState :=
  applyTicks cfg7 (List.replicate 300 (t0C7 + 3601000)) c7s4

def c7s6 : AppState := endScheduledBreakEarly (t0C7 + 3900000) c7s5

/-- C6 witness inputs: a shift with a record of the first break completed
earlier on the same Sunday, probed inside the original window. -/
def shC6c : ActiveShift :=
  { id := "x", startTime := some t0C7,
    breaks := [{ startTime := t0C7, endTime := some (t0C7 + 60000),
                 isScheduled := true, scheduledBreakId := some "b1",
                 scheduledBreakName := some "B1" }],
    baseWageAtStart := some (10 : ℚ), activeScheduledBreakInfo := none }

/-- C6 witness: the invariant at a reachable state, first-wins at the 11:00
trigger where both configured entries are inspected, and no-retrigger for
the completed first break probed at 10:02. -/
theorem claim_C6_witness :
    openAutoCount sh0C7.breaks ≤ 1 ∧
    (sbEligible sh2C7 (t0C7 + 3600000) sb2C7 = true ∧
      ∃ l1 l2, cfg7.scheduledBreaks = l1 ++ sb2C7 :: l2 ∧
        ∀ x ∈ l1, sbEligible sh2C7 (t0C7 + 3600000) x = false) ∧
    cfg7.scheduledBreaks.find? (sbEligible shC6c (t0C7 + 120000)) ≠
      some sb1C7 :=
  ⟨claim_C6.1 c7s0
      (Reachable.step (Action.startShift t0C7) cfg7 Reachable.init)
      sh0C7 rfl,
   claim_C6.2.1 cfg7 sh2C7 (t0C7 + 3600000) sb2C7 rfl,
   claim_C6.2.2 cfg7 shC6c (t0C7 + 120000) sb1C7 _
     (List.mem_singleton.mpr rfl) rfl rfl (by decide) (by decide)⟩

/-! ### The scenario facts -/

theorem c7s1_proj :
    c7s1.status = TimerStatus.on_scheduled_break ∧
    c7s1.currentShift = some sh1C7 ∧
    c7s1.scheduledBreakCountdown = some 1800 ∧
    c7s1.lastUnusedScheduledBreakTime = 0 := by
  obtain ⟨hc1, hc2, hc3, hc4, hc5⟩ :=
    @calc_proj t0C7 cfg7 c7s0 (by decide)
  obtain ⟨hf1, hf2, hf3, hf4, hf5⟩ :=
    @trigger_proj_fire t0C7 cfg7
      (calculateCurrentTimersAndEarnings t0C7 cfg7 c7s0) sh0C7 sb1C7
      (by rw [hc2]; rfl) (by decide) (by decide) (by rw [hc1]; rfl) rfl
  have htw : c7s1 = persistEffect (checkAndTriggerScheduledBreaks t0C7 cfg7
      (calculateCurrentTimersAndEarnings t0C7 cfg7 c7s0)) :=
    tick_working_eq rfl
  rw [htw, persistEffect_status, persistEffect_currentShift,
    persistEffect_countdown, persistEffect_unused]
  exact ⟨hf1, hf2.trans rfl, hf3.trans rfl, hf4⟩

theorem c7s2_proj :
    c7s2.status = TimerStatus.on_scheduled_break ∧
    c7s2.currentShift = some sh1C7 ∧
    c7s2.scheduledBreakCountdown = some 1200 ∧
    c7s2.lastUnusedScheduledBreakTime = 0 := by
  obtain ⟨h1, h2, h3, h4⟩ := c7s1_proj
  obtain ⟨g1, g2, g3, g4⟩ :=
    @applyTicks_sched_proj cfg7 (List.replicate 600 (t0C7 + 1000))
      c7s1 sh1C7 1800 h2 (by decide) h1 h3
      (by rw [List.length_replicate]; norm_num)
  refine ⟨g1, g2, ?_, g4.trans h4⟩
  refine g3.trans ?_
  rw [List.length_replicate]

theorem c7s3_proj :
    c7s3.status = TimerStatus.working ∧
    c7s3.currentShift = some sh2C7 ∧
    c7s3.scheduledBreakCountdown = none ∧
    c7s3.lastUnusedScheduledBreakTime = 1200 := by
  obtain ⟨h1, h2, h3, h4⟩ := c7s2_proj
  obtain ⟨g1, g2, g3, g4, g5⟩ :=
    @endEarly_proj (t0C7 + 600000) c7s2 sh1C7 p1C7 1200 h2 h3 rfl h1
  refine ⟨g1, g2.trans rfl, g3, ?_⟩
  refine g4.trans ?_
  rw [if_pos (by norm_num : (0 : ℕ) < 1200), h4]

theorem c7s4_proj :
    c7s4.status = TimerStatus.on_scheduled_break ∧
    c7s4.currentShift = some sh3C7 ∧
    c7s4.scheduledBreakCountdown = some 1800 ∧
    c7s4.lastUnusedScheduledBreakTime = 0 := by
  obtain ⟨h1, h2, h3, h4⟩ := c7s3_proj
  obtain ⟨hc1, hc2, hc3, hc4, hc5⟩ :=
    @calc_proj (t0C7 + 3600000) cfg7 c7s3
      (by rw [h1]; decide)
  obtain ⟨hf1, hf2, hf3, hf4, hf5⟩ :=
    @trigger_proj_fire (t0C7 + 3600000) cfg7
      (calculateCurrentTimersAndEarnings (t0C7 + 3600000) cfg7 c7s3)
      sh2C7 sb2C7
      (hc2.trans h2) (by decide) (by decide) (hc1.trans h1) rfl
  have htw : c7s4 = persistEffect (checkAndTriggerScheduledBreaks
      (t0C7 + 3600000) cfg7
      (calculateCurrentTimersAndEarnings (t0C7 + 3600000) cfg7 c7s3)) :=
    tick_working_eq h1
  rw [htw, persistEffect_status, persistEffect_currentShift,
    persistEffect_countdown, persistEffect_unused]
  exact ⟨hf1, hf2.trans rfl, hf3.trans rfl, hf4⟩

theorem c7s5_proj :
    c7s5.status = TimerStatus.on_scheduled_break ∧
    c7s5.currentShift = some sh3C7 ∧
    c7s5.scheduledBreakCountdown = some 1500 ∧
    c7s5.lastUnusedScheduledBreakTime = 0 := by
  obtain ⟨h1, h2, h3, h4⟩ := c7s4_proj
  obtain ⟨g1, g2, g3, g4⟩ :=
    @applyTicks_sched_proj cfg7
      (List.replicate 300 (t0C7 + 3601000)) c7s4 sh3C7 1800
      h2 (by decide) h1 h3
      (by rw [List.length_replicate]; norm_num)
  refine ⟨g1, g2, ?_, g4.trans h4⟩
  refine g3.trans ?_
  rw [List.length_replicate]

theorem trigger_cases (now : ℕ) (cfg : AppSettings) (s : AppState) :
    checkAndTriggerScheduledBreaks now cfg s = s ∨
    (checkAndTriggerScheduledBreaks now cfg
      s).lastUnusedScheduledBreakTime = 0 := by
  obtain ⟨st, csh, ew, eb, cd, lu, ce, er, hist, k1, k2, k3⟩ := s
  cases csh with
  | none => exact Or.inl rfl
  | some sh =>
    simp only [checkAndTriggerScheduledBreaks]
    split
    · exact Or.inl rfl
    · split
      · exact Or.inl rfl
      · exact Or.inr rfl

/-- C7: ending an automatic break early adds the remaining countdown to the
unused-time counter only when it is positive; firing a new automatic break
zeroes the counter; hence the scenario of a 30-minute break ended after 10
minutes banks 1200 seconds, and ending the second 30-minute break after 5
minutes leaves the bank at that break's own leftover 1500, not the sum
2700. -/
theorem claim_C7 :
    (∀ (s : AppState) (sh : ActiveShift) (info : ActiveBreakInfo)
      (r now : ℕ),
      s.currentShift = some sh → s.scheduledBreakCountdown = some r →
      sh.activeScheduledBreakInfo = some info →
      s.status = TimerStatus.on_scheduled_break →
      (endScheduledBreakEarly now s).lastUnusedScheduledBreakTime =
        (if 0 < r then s.lastUnusedScheduledBreakTime + r
         else s.lastUnusedScheduledBreakTime)) ∧
    (∀ (now : ℕ) (cfg : AppSettings) (s : AppState),
      s.status = TimerStatus.working →
      (checkAndTriggerScheduledBreaks now cfg s).status =
        TimerStatus.on_scheduled_break →
      (checkAndTriggerScheduledBreaks now cfg
        s).lastUnusedScheduledBreakTime = 0) ∧
    (c7s3.lastUnusedScheduledBreakTime = 1200 ∧
     c7s6.lastUnusedScheduledBreakTime = 1500 ∧
     (1500 : ℕ) ≠ 1200 + 1500) := by
  refine ⟨?_, ?_, ?_, ?_, by norm_num⟩
  · intro s sh info r now hsh hcd hinfo hst
    exact (endEarly_proj hsh hcd hinfo hst).2.2.2.1
  · intro now cfg s hw htrig
    rcases trigger_cases now cfg s with hres | hres
    · rw [hres, hw] at htrig
      exact absurd htrig (by decide)
    · exact hres
  · exact c7s3_proj.2.2.2
  · obtain ⟨h1, h2, h3, h4⟩ := c7s5_proj
    obtain ⟨g1, g2, g3, g4, g5⟩ :=
      @endEarly_proj (t0C7 + 3900000) c7s5 sh3C7 p2C7 1500 h2 h3 rfl h1
    refine g4.trans ?_
    rw [if_pos (by norm_num : (0 : ℕ) < 1500), h4]

/-- The snapshot of the C7 witness: an automatic break of the first
configured window is active. -/
def shC7w : ActiveShift :=
  { id := "w", startTime := some 5, breaks := [rec1C7],
    baseWageAtStart := some (10 : ℚ), activeScheduledBreakInfo := some p1C7 }

/-- The state of the C7 witness: 300 countdown seconds remain and 77 seconds
are already banked. -/
def sC7w : AppState :=
  { status := .on_scheduled_break, currentShift := some shC7w
    elapsedWorkTime := 0, elapsedBreakTime := 0
    scheduledBreakCountdown := some 300, lastUnusedScheduledBreakTime := 77
    currentEarnings := 0, effectiveHourlyRate := 0, history := []
    storedShift := none, storedStatus := none, storedUnused := none }

/-- C7 witness: the banking rule applied at a concrete mid-break state, and
the counter-clearing rule applied at the concrete firing trigger of the
scenario. -/
theorem claim_C7_witness :
    ((endScheduledBreakEarly 9 sC7w).lastUnusedScheduledBreakTime =
      (if 0 < 300 then sC7w.lastUnusedScheduledBreakTime + 300
       else sC7w.lastUnusedScheduledBreakTime)) ∧
    (checkAndTriggerScheduledBreaks t0C7 cfg7
      c7s0).lastUnusedScheduledBreakTime = 0 :=
  ⟨claim_C7.1 sC7w shC7w p1C7 300 9 rfl rfl rfl rfl,
   claim_C7.2.1 t0C7 cfg7 c7s0 rfl rfl⟩

end WageTimer
